import Mathlib

/-!
Shallow embedding of the LSM storage engine in `src/fs/lsm.rs`, together
with proofs settling the frozen specification claims.

Modelling conventions, used throughout:

* Bytes are `Nat` values; every place the Rust source casts with `as u8`
  the embedding takes `% 256` explicitly.
* `usize` quantities are `Nat`.  Subtractions that cannot underflow in the
  executions of interest are modelled by truncated `Nat` subtraction.
* `i32`/`i16` results that the source produces by sign-preserving casts of
  small in-range values are modelled as `Int` (for comparison results and
  cursor indices) or as `Nat` (for page numbers and counts, which are
  always non-negative and far below `2^31` here).
* A mutable byte buffer is a function `Nat → Nat` updated pointwise; a
  page is the extraction of the first `pageSize` entries of a buffer; a
  file is a list of pages (page number `n` lives at list index `n - 1`).
* Loops become recursion; the few loops whose bound is not structural are
  given explicit fuel that is ample for every execution considered.
* Fallible operations return `Option`; a `panic!` or an out-of-bounds
  index in the source is modelled as `none`.
-/

/-- A mutable byte buffer: index to byte value. -/
def Buf : Type := Nat → Nat

/-- Pointwise buffer update, the model of `buf[i] = x`. -/
def upd (f : Buf) (i x : Nat) : Buf := fun j => if j = i then x else f j

theorem upd_same (f : Buf) (i x : Nat) : upd f i x i = x := by simp [upd]

theorem upd_other (f : Buf) (i x j : Nat) (h : j ≠ i) : upd f i x j = f j := by
  simp [upd, h]

namespace Varint

/-- Embeds `Varint::SpaceNeededFor` from src/fs/lsm.rs. -/
def SpaceNeededFor (v : Nat) : Nat :=
  if v ≤ 240 then 1
  else if v ≤ 2287 then 2
  else if v ≤ 67823 then 3
  else if v ≤ 16777215 then 4
  else if v ≤ 4294967295 then 5
  else if v ≤ 1099511627775 then 6
  else if v ≤ 281474976710655 then 7
  else if v ≤ 72057594037927935 then 8
  else 9

/-- Embeds `Varint::read` from src/fs/lsm.rs: reads a varint from `buf`
at offset `cur`, returning the new offset and the decoded value. -/
def read (buf : Buf) (cur : Nat) : Nat × Nat :=
  let a0 := buf cur
  if a0 ≤ 240 then (cur + 1, a0)
  else if a0 ≤ 248 then
    let a1 := buf (cur + 1)
    (cur + 2, 240 + 256 * (a0 - 241) + a1)
  else if a0 = 249 then
    let a1 := buf (cur + 1)
    let a2 := buf (cur + 2)
    (cur + 3, 2288 + 256 * a1 + a2)
  else if a0 = 250 then
    let a1 := buf (cur + 1)
    let a2 := buf (cur + 2)
    let a3 := buf (cur + 3)
    (cur + 4, (a1 <<< 16) ||| (a2 <<< 8) ||| a3)
  else if a0 = 251 then
    let a1 := buf (cur + 1)
    let a2 := buf (cur + 2)
    let a3 := buf (cur + 3)
    let a4 := buf (cur + 4)
    (cur + 5, (a1 <<< 24) ||| (a2 <<< 16) ||| (a3 <<< 8) ||| a4)
  else if a0 = 252 then
    let a1 := buf (cur + 1)
    let a2 := buf (cur + 2)
    let a3 := buf (cur + 3)
    let a4 := buf (cur + 4)
    let a5 := buf (cur + 5)
    (cur + 6, (a1 <<< 32) ||| (a2 <<< 24) ||| (a3 <<< 16) ||| (a4 <<< 8) ||| a5)
  else if a0 = 253 then
    let a1 := buf (cur + 1)
    let a2 := buf (cur + 2)
    let a3 := buf (cur + 3)
    let a4 := buf (cur + 4)
    let a5 := buf (cur + 5)
    let a6 := buf (cur + 6)
    (cur + 7, (a1 <<< 40) ||| (a2 <<< 32) ||| (a3 <<< 24) ||| (a4 <<< 16) |||
      (a5 <<< 8) ||| a6)
  else if a0 = 254 then
    let a1 := buf (cur + 1)
    let a2 := buf (cur + 2)
    let a3 := buf (cur + 3)
    let a4 := buf (cur + 4)
    let a5 := buf (cur + 5)
    let a6 := buf (cur + 6)
    let a7 := buf (cur + 7)
    (cur + 8, (a1 <<< 48) ||| (a2 <<< 40) ||| (a3 <<< 32) ||| (a4 <<< 24) |||
      (a5 <<< 16) ||| (a6 <<< 8) ||| a7)
  else
    let a1 := buf (cur + 1)
    let a2 := buf (cur + 2)
    let a3 := buf (cur + 3)
    let a4 := buf (cur + 4)
    let a5 := buf (cur + 5)
    let a6 := buf (cur + 6)
    let a7 := buf (cur + 7)
    let a8 := buf (cur + 8)
    (cur + 9, (a1 <<< 56) ||| (a2 <<< 48) ||| (a3 <<< 40) ||| (a4 <<< 32) |||
      (a5 <<< 24) ||| (a6 <<< 16) ||| (a7 <<< 8) ||| a8)

/-- Embeds `Varint::write` from src/fs/lsm.rs: writes `v` into `buf` at
offset `cur`, returning the updated buffer and the new offset.  Every
`as u8` cast of the source is `% 256` here. -/
def write (buf : Buf) (cur v : Nat) : Buf × Nat :=
  if v ≤ 240 then (upd buf cur (v % 256), cur + 1)
  else if v ≤ 2287 then
    (upd (upd buf cur (((v - 240) / 256 + 241) % 256)) (cur + 1) ((v - 240) % 256 % 256),
      cur + 2)
  else if v ≤ 67823 then
    (upd (upd (upd buf cur 249) (cur + 1) (((v - 2288) / 256) % 256))
      (cur + 2) (((v - 2288) % 256) % 256), cur + 3)
  else if v ≤ 16777215 then
    (upd (upd (upd (upd buf cur 250) (cur + 1) ((v >>> 16) % 256))
      (cur + 2) ((v >>> 8) % 256)) (cur + 3) ((v >>> 0) % 256), cur + 4)
  else if v ≤ 4294967295 then
    (upd (upd (upd (upd (upd buf cur 251) (cur + 1) ((v >>> 24) % 256))
      (cur + 2) ((v >>> 16) % 256)) (cur + 3) ((v >>> 8) % 256))
      (cur + 4) ((v >>> 0) % 256), cur + 5)
  else if v ≤ 1099511627775 then
    (upd (upd (upd (upd (upd (upd buf cur 252) (cur + 1) ((v >>> 32) % 256))
      (cur + 2) ((v >>> 24) % 256)) (cur + 3) ((v >>> 16) % 256))
      (cur + 4) ((v >>> 8) % 256)) (cur + 5) ((v >>> 0) % 256), cur + 6)
  else if v ≤ 281474976710655 then
    (upd (upd (upd (upd (upd (upd (upd buf cur 253) (cur + 1) ((v >>> 40) % 256))
      (cur + 2) ((v >>> 32) % 256)) (cur + 3) ((v >>> 24) % 256))
      (cur + 4) ((v >>> 16) % 256)) (cur + 5) ((v >>> 8) % 256))
      (cur + 6) ((v >>> 0) % 256), cur + 7)
  else if v ≤ 72057594037927935 then
    (upd (upd (upd (upd (upd (upd (upd (upd buf cur 254) (cur + 1) ((v >>> 48) % 256))
      (cur + 2) ((v >>> 40) % 256)) (cur + 3) ((v >>> 32) % 256))
      (cur + 4) ((v >>> 24) % 256)) (cur + 5) ((v >>> 16) % 256))
      (cur + 6) ((v >>> 8) % 256)) (cur + 7) ((v >>> 0) % 256), cur + 8)
  else
    (upd (upd (upd (upd (upd (upd (upd (upd (upd buf cur 255)
      (cur + 1) ((v >>> 56) % 256)) (cur + 2) ((v >>> 48) % 256))
      (cur + 3) ((v >>> 40) % 256)) (cur + 4) ((v >>> 32) % 256))
      (cur + 5) ((v >>> 24) % 256)) (cur + 6) ((v >>> 16) % 256))
      (cur + 7) ((v >>> 8) % 256)) (cur + 8) ((v >>> 0) % 256), cur + 9)

end Varint

theorem varint_write_cursor (f : Buf) (cur v : Nat) :
    (Varint.write f cur v).2 = cur + Varint.SpaceNeededFor v := by
  unfold Varint.write Varint.SpaceNeededFor
  split_ifs <;> rfl

theorem varint_space_bounds (v : Nat) :
    1 ≤ Varint.SpaceNeededFor v ∧ Varint.SpaceNeededFor v ≤ 9 := by
  unfold Varint.SpaceNeededFor
  split_ifs <;> omega

/-- Disjoint bitwise-or is addition: `x <<< k ||| y = x * 2^k + y` when `y < 2^k`. -/
theorem orsh (x y k : Nat) (hy : y < 2 ^ k) : x <<< k ||| y = x * 2 ^ k + y := by
  apply Nat.eq_of_testBit_eq
  intro i
  have hxy : x * 2 ^ k + y = 2 ^ k * x + y := by ring_nf
  rw [Nat.testBit_lor, Nat.testBit_shiftLeft, hxy, Nat.testBit_mul_pow_two_add x hy i]
  by_cases h : i < k
  · have hnk : ¬ (k ≤ i) := by omega
    simp [h, hnk]
  · have hk : k ≤ i := by omega
    have hyb : y.testBit i = false :=
      Nat.testBit_lt_two_pow (lt_of_lt_of_le hy (Nat.pow_le_pow_right (by norm_num) hk))
    simp [h, hk, hyb]

/-- Left shift distributes over bitwise or. -/
theorem lor_shl (x y k : Nat) : (x ||| y) <<< k = (x <<< k) ||| (y <<< k) := by
  apply Nat.eq_of_testBit_eq
  intro i
  simp only [Nat.testBit_shiftLeft, Nat.testBit_lor]
  by_cases h : k ≤ i <;> simp [h, Bool.and_or_distrib_left]

theorem byterec2 (b1 b0 : Nat) (h0 : b0 < 256) :
    (b1 <<< 8) ||| b0 = b1 * 256 + b0 := by
  have h := orsh b1 b0 8 (by omega)
  simpa using h

theorem byterec3 (b2 b1 b0 : Nat) (h1 : b1 < 256) (h0 : b0 < 256) :
    (b2 <<< 16) ||| (b1 <<< 8) ||| b0 = (b2 * 256 + b1) * 256 + b0 := by
  have hpre : ((b2 <<< 8) ||| b1) <<< 8 = (b2 <<< 16) ||| (b1 <<< 8) := by
    simp [lor_shl, ← Nat.shiftLeft_add]
  rw [← hpre, orsh _ _ 8 (by omega), byterec2 b2 b1 h1]
  norm_num

theorem byterec4 (b3 b2 b1 b0 : Nat) (h2 : b2 < 256) (h1 : b1 < 256) (h0 : b0 < 256) :
    (b3 <<< 24) ||| (b2 <<< 16) ||| (b1 <<< 8) ||| b0 =
      ((b3 * 256 + b2) * 256 + b1) * 256 + b0 := by
  have hpre : ((b3 <<< 16) ||| (b2 <<< 8) ||| b1) <<< 8 =
      (b3 <<< 24) ||| (b2 <<< 16) ||| (b1 <<< 8) := by
    simp [lor_shl, ← Nat.shiftLeft_add]
  rw [← hpre, orsh _ _ 8 (by omega), byterec3 b3 b2 b1 h2 h1]
  norm_num

theorem byterec5 (b4 b3 b2 b1 b0 : Nat) (h3 : b3 < 256) (h2 : b2 < 256)
    (h1 : b1 < 256) (h0 : b0 < 256) :
    (b4 <<< 32) ||| (b3 <<< 24) ||| (b2 <<< 16) ||| (b1 <<< 8) ||| b0 =
      (((b4 * 256 + b3) * 256 + b2) * 256 + b1) * 256 + b0 := by
  have hpre : ((b4 <<< 24) ||| (b3 <<< 16) ||| (b2 <<< 8) ||| b1) <<< 8 =
      (b4 <<< 32) ||| (b3 <<< 24) ||| (b2 <<< 16) ||| (b1 <<< 8) := by
    simp [lor_shl, ← Nat.shiftLeft_add]
  rw [← hpre, orsh _ _ 8 (by omega), byterec4 b4 b3 b2 b1 h3 h2 h1]
  norm_num

theorem byterec6 (b5 b4 b3 b2 b1 b0 : Nat) (h4 : b4 < 256) (h3 : b3 < 256)
    (h2 : b2 < 256) (h1 : b1 < 256) (h0 : b0 < 256) :
    (b5 <<< 40) ||| (b4 <<< 32) ||| (b3 <<< 24) ||| (b2 <<< 16) ||| (b1 <<< 8) ||| b0 =
      ((((b5 * 256 + b4) * 256 + b3) * 256 + b2) * 256 + b1) * 256 + b0 := by
  have hpre : ((b5 <<< 32) ||| (b4 <<< 24) ||| (b3 <<< 16) ||| (b2 <<< 8) ||| b1) <<< 8 =
      (b5 <<< 40) ||| (b4 <<< 32) ||| (b3 <<< 24) ||| (b2 <<< 16) ||| (b1 <<< 8) := by
    simp [lor_shl, ← Nat.shiftLeft_add]
  rw [← hpre, orsh _ _ 8 (by omega), byterec5 b5 b4 b3 b2 b1 h4 h3 h2 h1]
  norm_num

theorem byterec7 (b6 b5 b4 b3 b2 b1 b0 : Nat) (h5 : b5 < 256) (h4 : b4 < 256)
    (h3 : b3 < 256) (h2 : b2 < 256) (h1 : b1 < 256) (h0 : b0 < 256) :
    (b6 <<< 48) ||| (b5 <<< 40) ||| (b4 <<< 32) ||| (b3 <<< 24) ||| (b2 <<< 16) |||
        (b1 <<< 8) ||| b0 =
      (((((b6 * 256 + b5) * 256 + b4) * 256 + b3) * 256 + b2) * 256 + b1) * 256 + b0 := by
  have hpre : ((b6 <<< 40) ||| (b5 <<< 32) ||| (b4 <<< 24) ||| (b3 <<< 16) |||
      (b2 <<< 8) ||| b1) <<< 8 =
      (b6 <<< 48) ||| (b5 <<< 40) ||| (b4 <<< 32) ||| (b3 <<< 24) ||| (b2 <<< 16) |||
        (b1 <<< 8) := by
    simp [lor_shl, ← Nat.shiftLeft_add]
  rw [← hpre, orsh _ _ 8 (by omega), byterec6 b6 b5 b4 b3 b2 b1 h5 h4 h3 h2 h1]
  norm_num

theorem byterec8 (b7 b6 b5 b4 b3 b2 b1 b0 : Nat) (h6 : b6 < 256) (h5 : b5 < 256)
    (h4 : b4 < 256) (h3 : b3 < 256) (h2 : b2 < 256) (h1 : b1 < 256) (h0 : b0 < 256) :
    (b7 <<< 56) ||| (b6 <<< 48) ||| (b5 <<< 40) ||| (b4 <<< 32) ||| (b3 <<< 24) |||
        (b2 <<< 16) ||| (b1 <<< 8) ||| b0 =
      ((((((b7 * 256 + b6) * 256 + b5) * 256 + b4) * 256 + b3) * 256 + b2) * 256 + b1) *
        256 + b0 := by
  have hpre : ((b7 <<< 48) ||| (b6 <<< 40) ||| (b5 <<< 32) ||| (b4 <<< 24) |||
      (b3 <<< 16) ||| (b2 <<< 8) ||| b1) <<< 8 =
      (b7 <<< 56) ||| (b6 <<< 48) ||| (b5 <<< 40) ||| (b4 <<< 32) ||| (b3 <<< 24) |||
        (b2 <<< 16) ||| (b1 <<< 8) := by
    simp [lor_shl, ← Nat.shiftLeft_add]
  rw [← hpre, orsh _ _ 8 (by omega), byterec7 b7 b6 b5 b4 b3 b2 b1 h6 h5 h4 h3 h2 h1]
  norm_num

theorem varint_read_write (f : Buf) (cur v : Nat) (hv : v < 2 ^ 64) :
    Varint.read (Varint.write f cur v).1 cur = (cur + Varint.SpaceNeededFor v, v) := by
  have hv64 : v < 18446744073709551616 := by omega
  unfold Varint.SpaceNeededFor
  by_cases c1 : v ≤ 240
  · rw [if_pos c1]
    unfold Varint.write
    rw [if_pos c1]
    unfold Varint.read
    simp only [upd, add_right_inj, self_eq_add_right, add_right_eq_self]
    norm_num
    rw [Nat.mod_eq_of_lt (by omega : v < 256), if_pos c1]
  · rw [if_neg c1]
    by_cases c2 : v ≤ 2287
    · rw [if_pos c2]
      unfold Varint.write
      rw [if_neg c1, if_pos c2]
      unfold Varint.read
      simp only [upd, add_right_inj, self_eq_add_right, add_right_eq_self]
      norm_num
      rw [Nat.mod_eq_of_lt (show (v - 240) / 256 + 241 < 256 by omega)]
      rw [if_neg (by omega), if_pos (by omega)]
      simp only [Prod.mk.injEq, true_and]
      omega
    · rw [if_neg c2]
      by_cases c3 : v ≤ 67823
      · rw [if_pos c3]
        unfold Varint.write
        rw [if_neg c1, if_neg c2, if_pos c3]
        unfold Varint.read
        simp only [upd, add_right_inj, self_eq_add_right, add_right_eq_self]
        norm_num
        omega
      · rw [if_neg c3]
        by_cases c4 : v ≤ 16777215
        · rw [if_pos c4]
          unfold Varint.write
          rw [if_neg c1, if_neg c2, if_neg c3, if_pos c4]
          unfold Varint.read
          simp only [upd, add_right_inj, self_eq_add_right, add_right_eq_self]
          norm_num
          rw [byterec3 _ _ _ (by omega) (by omega)]
          simp only [Nat.shiftRight_eq_div_pow]
          norm_num
          omega
        · rw [if_neg c4]
          by_cases c5 : v ≤ 4294967295
          · rw [if_pos c5]
            unfold Varint.write
            rw [if_neg c1, if_neg c2, if_neg c3, if_neg c4, if_pos c5]
            unfold Varint.read
            simp only [upd, add_right_inj, self_eq_add_right, add_right_eq_self]
            norm_num
            rw [byterec4 _ _ _ _ (by omega) (by omega) (by omega)]
            simp only [Nat.shiftRight_eq_div_pow]
            norm_num
            omega
          · rw [if_neg c5]
            by_cases c6 : v ≤ 1099511627775
            · rw [if_pos c6]
              unfold Varint.write
              rw [if_neg c1, if_neg c2, if_neg c3, if_neg c4, if_neg c5, if_pos c6]
              unfold Varint.read
              simp only [upd, add_right_inj, self_eq_add_right, add_right_eq_self]
              norm_num
              rw [byterec5 _ _ _ _ _ (by omega) (by omega) (by omega) (by omega)]
              simp only [Nat.shiftRight_eq_div_pow]
              norm_num
              omega
            · rw [if_neg c6]
              by_cases c7 : v ≤ 281474976710655
              · rw [if_pos c7]
                unfold Varint.write
                rw [if_neg c1, if_neg c2, if_neg c3, if_neg c4, if_neg c5, if_neg c6,
                  if_pos c7]
                unfold Varint.read
                simp only [upd, add_right_inj, self_eq_add_right, add_right_eq_self]
                norm_num
                rw [byterec6 _ _ _ _ _ _ (by omega) (by omega) (by omega) (by omega)
                  (by omega)]
                simp only [Nat.shiftRight_eq_div_pow]
                norm_num
                omega
              · rw [if_neg c7]
                by_cases c8 : v ≤ 72057594037927935
                · rw [if_pos c8]
                  unfold Varint.write
                  rw [if_neg c1, if_neg c2, if_neg c3, if_neg c4, if_neg c5, if_neg c6,
                    if_neg c7, if_pos c8]
                  unfold Varint.read
                  simp only [upd, add_right_inj, self_eq_add_right, add_right_eq_self]
                  norm_num
                  rw [byterec7 _ _ _ _ _ _ _ (by omega) (by omega) (by omega) (by omega)
                    (by omega) (by omega)]
                  simp only [Nat.shiftRight_eq_div_pow]
                  norm_num
                  omega
                · rw [if_neg c8]
                  unfold Varint.write
                  rw [if_neg c1, if_neg c2, if_neg c3, if_neg c4, if_neg c5, if_neg c6,
                    if_neg c7, if_neg c8]
                  unfold Varint.read
                  simp only [upd, add_right_inj, self_eq_add_right, add_right_eq_self]
                  norm_num
                  rw [byterec8 _ _ _ _ _ _ _ _ (by omega) (by omega) (by omega) (by omega)
                    (by omega) (by omega) (by omega)]
                  simp only [Nat.shiftRight_eq_div_pow]
                  norm_num
                  omega

namespace PageType

/-- Embeds `bt::PageType` from src/fs/lsm.rs. -/
def LEAF_NODE : Nat := 1

def PARENT_NODE : Nat := 2

def OVERFLOW_NODE : Nat := 3

end PageType

namespace ValueFlag

/-- Embeds `bt::ValueFlag` from src/fs/lsm.rs. -/
def FLAG_OVERFLOW : Nat := 1

def FLAG_TOMBSTONE : Nat := 2

end ValueFlag

namespace PageFlag

/-- Embeds `bt::PageFlag` from src/fs/lsm.rs: note that the source gives
`FLAG_ENDS_ON_BOUNDARY` the value 3 = 1 ||| 2, not an independent bit. -/
def FLAG_ROOT_NODE : Nat := 1

def FLAG_BOUNDARY_NODE : Nat := 2

def FLAG_ENDS_ON_BOUNDARY : Nat := 3

end PageFlag

/-- Embeds `PageBuffer::CheckPageFlag` from src/fs/lsm.rs: bitwise AND of
the page's flag byte (byte 1) against `f`. -/
def CheckPageFlag (page : List Nat) (f : Nat) : Bool :=
  decide (0 ≠ (page.getD 1 0) &&& f)

theorem and_two_pow_ne (b i : Nat) (h : b &&& 2 ^ i ≠ 0) : b.testBit i = true := by
  rw [Nat.and_two_pow] at h
  cases hb : b.testBit i
  · rw [hb] at h
    simp at h
  · rfl

theorem and_three_ne (b i : Nat) (hi : i < 2) (h : b &&& 2 ^ i ≠ 0) : b &&& 3 ≠ 0 := by
  have hb : b.testBit i = true := and_two_pow_ne b i h
  intro h3
  have ht := congrArg (fun n => n.testBit i) h3
  simp only [Nat.testBit_land, Nat.zero_testBit, hb, Bool.true_and] at ht
  interval_cases i <;> exact absurd ht (by decide)

/-- C10: Because `FLAG_ENDS_ON_BOUNDARY = 3` while `FLAG_BOUNDARY_NODE = 2`
and `FLAG_ROOT_NODE = 1`, and `CheckPageFlag` tests with bitwise AND, any
page whose flag byte passes the `FLAG_BOUNDARY_NODE` test (or the
`FLAG_ROOT_NODE` test) also passes the `FLAG_ENDS_ON_BOUNDARY` test: the
flags are not independently testable. -/
theorem claim_flags_conflated (page : List Nat) :
    (CheckPageFlag page PageFlag.FLAG_BOUNDARY_NODE = true →
      CheckPageFlag page PageFlag.FLAG_ENDS_ON_BOUNDARY = true) ∧
    (CheckPageFlag page PageFlag.FLAG_ROOT_NODE = true →
      CheckPageFlag page PageFlag.FLAG_ENDS_ON_BOUNDARY = true) := by
  unfold CheckPageFlag PageFlag.FLAG_BOUNDARY_NODE PageFlag.FLAG_ROOT_NODE
    PageFlag.FLAG_ENDS_ON_BOUNDARY
  constructor
  · intro h
    simp only [decide_eq_true_eq] at h ⊢
    have h2 : (page.getD 1 0) &&& 2 ^ 1 ≠ 0 := by
      have e : (2 : Nat) ^ 1 = 2 := by norm_num
      rw [e]
      omega
    have h3 := and_three_ne _ 1 (by omega) h2
    omega
  · intro h
    simp only [decide_eq_true_eq] at h ⊢
    have h2 : (page.getD 1 0) &&& 2 ^ 0 ≠ 0 := by
      have e : (2 : Nat) ^ 0 = 1 := by norm_num
      rw [e]
      omega
    have h3 := and_three_ne _ 0 (by omega) h2
    omega

/-- Witness for C10: a page whose flag byte is exactly `FLAG_BOUNDARY_NODE`
(2) passes the `FLAG_ENDS_ON_BOUNDARY` test, and one whose flag byte is
exactly `FLAG_ROOT_NODE` (1) does too. -/
theorem claim_flags_conflated_witness :
    CheckPageFlag [3, 2] PageFlag.FLAG_ENDS_ON_BOUNDARY = true ∧
    CheckPageFlag [3, 1] PageFlag.FLAG_ENDS_ON_BOUNDARY = true :=
  ⟨(claim_flags_conflated [3, 2]).1 (by decide),
    (claim_flags_conflated [3, 1]).2 (by decide)⟩

namespace bcmp

/-- Embeds the loop of `bcmp::Compare` from src/fs/lsm.rs; `fuel` is the
number of remaining iterations (`min xlen ylen - i` at entry). -/
def CompareGo (x y : List Nat) : Nat → Nat → Int
  | 0, _ => (x.length : Int) - (y.length : Int)
  | fuel + 1, i =>
    let c : Int := (x.getD i 0 : Int) - (y.getD i 0 : Int)
    if c ≠ 0 then c else CompareGo x y fuel (i + 1)

/-- Embeds `bcmp::Compare`: lexicographic unsigned byte comparison, with the
final `(xlen - ylen) as i32` tie-break taken over `Int`. -/
def Compare (x y : List Nat) : Int := CompareGo x y (min x.length y.length) 0

/-- Embeds the loop of `bcmp::CompareWithPrefix` from src/fs/lsm.rs:
position `i < plen` reads `prefix[i]`, later positions read `x[i - plen]`;
the loop bound and the tie-break use `x.length` and `y.length` only. -/
def CompareWPGo (p x y : List Nat) : Nat → Nat → Int
  | 0, _ => (x.length : Int) - (y.length : Int)
  | fuel + 1, i =>
    let xval : Nat := if i < p.length then p.getD i 0 else x.getD (i - p.length) 0
    let c : Int := (xval : Int) - (y.getD i 0 : Int)
    if c ≠ 0 then c else CompareWPGo p x y fuel (i + 1)

/-- Embeds `bcmp::CompareWithPrefix` (named `CompareWP` here). -/
def CompareWP (p x y : List Nat) : Int := CompareWPGo p x y (min x.length y.length) 0

/-- Embeds the loop of `bcmp::PrefixMatch`. -/
def PrefixMatchGo (x y : List Nat) : Nat → Nat → Nat
  | 0, i => i
  | fuel + 1, i => if x.getD i 0 = y.getD i 0 then PrefixMatchGo x y fuel (i + 1) else i

/-- Embeds `bcmp::PrefixMatch`: length of the longest common prefix of `x`
and `y`, capped at `mx`. -/
def PrefixMatch (x y : List Nat) (mx : Nat) : Nat :=
  let len := min x.length y.length
  let lim := min len mx
  PrefixMatchGo x y lim 0

theorem take_append_getD (p x : List Nat) (i : Nat) (hi : i < x.length) :
    ((p ++ x).take x.length).getD i 0 =
      if i < p.length then p.getD i 0 else x.getD (i - p.length) 0 := by
  rw [List.getD_eq_getElem?_getD, List.getElem?_take, if_pos hi]
  by_cases hp : i < p.length
  · rw [if_pos hp, List.getElem?_append_left hp, List.getD_eq_getElem?_getD]
  · rw [if_neg hp, List.getElem?_append_right (by omega : p.length ≤ i),
      List.getD_eq_getElem?_getD]

theorem cwp_go_eq (p x y : List Nat) (fuel i : Nat)
    (hfi : fuel + i ≤ min x.length y.length) :
    CompareWPGo p x y fuel i = CompareGo ((p ++ x).take x.length) y fuel i := by
  have hlen : ((p ++ x).take x.length).length = x.length := by
    simp [List.length_take]
  induction fuel generalizing i with
  | zero => rw [CompareWPGo, CompareGo, hlen]
  | succ fuel ih =>
    rw [CompareWPGo, CompareGo]
    rw [take_append_getD p x i (by omega)]
    by_cases hc : ((if i < p.length then p.getD i 0 else x.getD (i - p.length) 0 :
        Nat) : Int) - (y.getD i 0 : Int) = 0
    · simp only [hc, ne_eq, not_true_eq_false, if_false]
      exact ih (i + 1) (by omega)
    · simp only [ne_eq, hc, not_false_eq_true, if_true]

end bcmp

/-- C3 counterexample: with prefix `p = [1]`, suffix `s = [2]`, other
`o = [1]`, `bcmp::CompareWithPrefix` returns 0 ("equal") while
`bcmp::Compare (p ++ s) o` returns 1, so the two differ. -/
theorem claim_cwp_counterexample :
    bcmp.CompareWP [1] [2] [1] = 0 ∧ bcmp.Compare ([1] ++ [2]) [1] = 1 ∧
      bcmp.CompareWP [1] [2] [1] ≠ bcmp.Compare ([1] ++ [2]) [1] := by
  refine ⟨by decide, by decide, by decide⟩

/-- C3 amended: `bcmp::CompareWithPrefix p s o` compares the virtual
concatenation `p ++ s` against `o` but treats `|s|` as the length of the
whole virtual key: it equals `bcmp::Compare ((p ++ s).take |s|) o`.  (Its
caller `compareKeyInLeaf` passes the full key length together with the
stored suffix, so for it the two agree.) -/
theorem claim_cwp_amended (p x y : List Nat) :
    bcmp.CompareWP p x y = bcmp.Compare ((p ++ x).take x.length) y := by
  unfold bcmp.CompareWP bcmp.Compare
  have hlen : ((p ++ x).take x.length).length = x.length := by
    simp [List.length_take]
  rw [hlen]
  exact bcmp.cwp_go_eq p x y (min x.length y.length) 0 (by omega)

/-- C2: For every u64 value `v`, decoding the bytes produced by `Varint::write`
at the same offset returns `v` again, the offset advance of `Varint::write`
equals `Varint::SpaceNeededFor v`, and `SpaceNeededFor` is always between 1
and 9. -/
theorem claim_varint_roundtrip (f : Buf) (cur v : Nat) (hv : v < 2 ^ 64) :
    Varint.read (Varint.write f cur v).1 cur = (cur + Varint.SpaceNeededFor v, v) ∧
    (Varint.write f cur v).2 = cur + Varint.SpaceNeededFor v ∧
    1 ≤ Varint.SpaceNeededFor v ∧ Varint.SpaceNeededFor v ≤ 9 :=
  ⟨varint_read_write f cur v hv, varint_write_cursor f cur v,
    (varint_space_bounds v).1, (varint_space_bounds v).2⟩

/-- Witness for C2 at a concrete input: value 300 at offset 5 round-trips in
2 bytes. -/
theorem claim_varint_roundtrip_witness :
    (300 : Nat) < 2 ^ 64 ∧
    Varint.read (Varint.write (fun _ => 0) 5 300).1 5 =
      (5 + Varint.SpaceNeededFor 300, 300) :=
  ⟨by norm_num, (claim_varint_roundtrip (fun _ => 0) 5 300 (by norm_num)).1⟩

/-- Embeds `PageBlock` from src/fs/lsm.rs. -/
structure PageBlock where
  firstPage : Nat
  lastPage : Nat
deriving DecidableEq, Repr

/-- Embeds `PageBlock::CountPages`. -/
def PageBlock.CountPages (b : PageBlock) : Nat := b.lastPage - b.firstPage + 1

/-- Model of `Vec::sort_by(|a,b| a.firstPage.cmp(&b.firstPage))`: any stable
sort with this comparator computes the same list; insertion sort is used
because it evaluates by structural recursion. -/
def sortByFirst (l : List PageBlock) : List PageBlock :=
  List.insertionSort (fun a b => a.firstPage ≤ b.firstPage) l

/-- Model of `Vec::sort_by(|a,b| b.CountPages().cmp(&a.CountPages()))`
(descending page count), as in `sortByFirst`. -/
def sortByCountDesc (l : List PageBlock) : List PageBlock :=
  List.insertionSort (fun a b => b.CountPages ≤ a.CountPages) l

instance : IsTotal PageBlock (fun a b => b.CountPages ≤ a.CountPages) :=
  ⟨fun a b => by omega⟩

instance : IsTrans PageBlock (fun a b => b.CountPages ≤ a.CountPages) :=
  ⟨fun a b c h1 h2 => by omega⟩

instance : IsTotal PageBlock (fun a b => a.firstPage ≤ b.firstPage) :=
  ⟨fun a b => by omega⟩

instance : IsTrans PageBlock (fun a b => a.firstPage ≤ b.firstPage) :=
  ⟨fun a b c h1 h2 => by omega⟩

/-- One pass of the merge loop in `Database::consolidateBlockList`: merge
the first pair of adjacent consecutive blocks, or report that none exists
(the source's `did = false`). -/
def mergePass : List PageBlock → Option (List PageBlock)
  | a :: b :: rest =>
    if a.lastPage + 1 = b.firstPage then some (⟨a.firstPage, b.lastPage⟩ :: rest)
    else
      match mergePass (b :: rest) with
      | some l2 => some (a :: l2)
      | none => none
  | _ => none

/-- The merge loop of `Database::consolidateBlockList`; each iteration that
merges shortens the list, so `fuel = length` iterations always suffice. -/
def consolidateGo : Nat → List PageBlock → List PageBlock
  | 0, l => l
  | fuel + 1, l =>
    if l.length = 1 then l
    else
      match mergePass l with
      | some l2 => consolidateGo fuel l2
      | none => l

/-- Embeds `Database::consolidateBlockList` from src/fs/lsm.rs: sort by
first page, then merge adjacent blocks until none remain. -/
def consolidateBlockList (l : List PageBlock) : List PageBlock :=
  consolidateGo l.length (sortByFirst l)

/-- Embeds `Database::invertBlockList` from src/fs/lsm.rs: after sorting by
first page, block `i` is rewritten to the gap between old block `i` and
block `i+1`, and the last block is removed; functionally, the interior gaps
of the sorted list. -/
def invertBlockList (blocks : List PageBlock) : List PageBlock :=
  let result := sortByFirst blocks
  (result.zip (result.drop 1)).map
    (fun ab => ⟨ab.1.lastPage + 1, ab.2.firstPage - 1⟩)

/-- Page `p` lies in block `b`. -/
def inBlock (p : Nat) (b : PageBlock) : Prop :=
  b.firstPage ≤ p ∧ p ≤ b.lastPage

instance (p : Nat) (b : PageBlock) : Decidable (inBlock p b) := by
  unfold inBlock
  infer_instance

/-- Page `p` lies in some block of `bs`. -/
def inBlocks (p : Nat) (bs : List PageBlock) : Prop :=
  ∃ b ∈ bs, inBlock p b

instance (p : Nat) (bs : List PageBlock) : Decidable (inBlocks p bs) := by
  unfold inBlocks
  infer_instance

/-- Embeds the allocator state of `Database::db` from src/fs/lsm.rs
(`nextPage`, `freeBlocks`, and the `PagesPerBlock` setting). -/
structure DbState where
  nextPage : Nat
  freeBlocks : List PageBlock
  pagesPerBlock : Nat
deriving Repr

/-- Embeds `db::getBlock` from src/fs/lsm.rs, returning the granted block
and the successor state. -/
def getBlock (st : DbState) (specificSize : Nat) : PageBlock × DbState :=
  if 0 < specificSize then
    match st.freeBlocks with
    | [] =>
      (⟨st.nextPage, st.nextPage + specificSize - 1⟩,
        { st with nextPage := st.nextPage + specificSize })
    | headBlk :: rest =>
      if specificSize > headBlk.CountPages then
        (⟨st.nextPage, st.nextPage + specificSize - 1⟩,
          { st with nextPage := st.nextPage + specificSize })
      else if headBlk.CountPages > specificSize then
        (⟨headBlk.firstPage, headBlk.firstPage + specificSize - 1⟩,
          { st with freeBlocks :=
              ⟨headBlk.firstPage + specificSize, headBlk.lastPage⟩ :: rest })
      else (headBlk, { st with freeBlocks := rest })
  else
    match st.freeBlocks with
    | [] =>
      (⟨st.nextPage, st.nextPage + st.pagesPerBlock - 1⟩,
        { st with nextPage := st.nextPage + st.pagesPerBlock })
    | headBlk :: rest => (headBlk, { st with freeBlocks := rest })

/-- Embeds `db::addFreeBlocks` from src/fs/lsm.rs: append, consolidate
(which sorts ascending by first page and merges adjacent blocks), then
re-sort descending by page count. -/
def addFreeBlocks (st : DbState) (blocks : List PageBlock) : DbState :=
  { st with freeBlocks :=
      sortByCountDesc (consolidateBlockList (st.freeBlocks ++ blocks)) }

/-- C7 counterexample: freeing the disjoint, non-adjacent blocks 11-20 and
31-38 yields the descending-sorted free list [11-20, 31-38]; a subsequent
`getBlock(5)` trims the head block in place to 16-20 (5 pages), leaving the
list [16-20, 31-38], which is no longer sorted by descending page count. -/
theorem claim_freelist_counterexample :
    (addFreeBlocks ⟨39, [], 10⟩ [⟨11, 20⟩, ⟨31, 38⟩]).freeBlocks =
        [⟨11, 20⟩, ⟨31, 38⟩] ∧
    (getBlock (addFreeBlocks ⟨39, [], 10⟩ [⟨11, 20⟩, ⟨31, 38⟩]) 5).2.freeBlocks =
        [⟨16, 20⟩, ⟨31, 38⟩] ∧
    ¬ List.Sorted (fun a b => b.CountPages ≤ a.CountPages)
      (getBlock (addFreeBlocks ⟨39, [], 10⟩ [⟨11, 20⟩, ⟨31, 38⟩]) 5).2.freeBlocks := by
  refine ⟨by decide, by decide, by decide⟩

/-- One merge of the `consolidateBlockList` loop shortens the list by one
element. -/
theorem mergePass_length (l l2 : List PageBlock) (h : mergePass l = some l2) :
    l2.length + 1 = l.length := by
  induction l generalizing l2 with
  | nil => cases h
  | cons a t ih =>
    cases t with
    | nil => cases h
    | cons b rest =>
      unfold mergePass at h
      split at h
      · cases h
        simp
      · cases hm : mergePass (b :: rest) with
        | none =>
          rw [hm] at h
          cases h
        | some l2' =>
          rw [hm] at h
          cases h
          have := ih l2' hm
          simp only [List.length_cons] at this ⊢
          omega

/-- Every block of a merged list keeps the first page of some input block
(a merge keeps the left block's first page). -/
theorem mergePass_firstPages (l l2 : List PageBlock)
    (h : mergePass l = some l2) :
    ∀ c ∈ l2, ∃ d ∈ l, c.firstPage = d.firstPage := by
  induction l generalizing l2 with
  | nil => cases h
  | cons a t ih =>
    cases t with
    | nil => cases h
    | cons b rest =>
      unfold mergePass at h
      split at h
      · cases h
        intro c hc
        rcases List.mem_cons.mp hc with hc | hc
        · exact ⟨a, List.mem_cons_self a _, by rw [hc]⟩
        · exact ⟨c, by simp [hc], rfl⟩
      · cases hm : mergePass (b :: rest) with
        | none =>
          rw [hm] at h
          cases h
        | some l2' =>
          rw [hm] at h
          cases h
          intro c hc
          rcases List.mem_cons.mp hc with hc | hc
          · exact ⟨a, List.mem_cons_self a _, by rw [hc]⟩
          · obtain ⟨d, hd, hdf⟩ := ih l2' hm c hc
            exact ⟨d, List.mem_cons_of_mem a hd, hdf⟩

/-- A merge preserves well-formedness of every block and the pairwise
strict separation `lastPage < firstPage` of the list. -/
theorem mergePass_inv (l l2 : List PageBlock) (h : mergePass l = some l2)
    (hwf : ∀ b ∈ l, b.firstPage ≤ b.lastPage)
    (hsep : List.Pairwise (fun a b => a.lastPage < b.firstPage) l) :
    (∀ b ∈ l2, b.firstPage ≤ b.lastPage) ∧
      List.Pairwise (fun a b => a.lastPage < b.firstPage) l2 := by
  induction l generalizing l2 with
  | nil => cases h
  | cons a t ih =>
    cases t with
    | nil => cases h
    | cons b rest =>
      rw [List.pairwise_cons] at hsep
      obtain ⟨ha, hsep2⟩ := hsep
      unfold mergePass at h
      split at h
      · rename_i hadj
        cases h
        have hsep2' := hsep2
        rw [List.pairwise_cons] at hsep2'
        obtain ⟨hb, hsep3⟩ := hsep2'
        refine ⟨?_, ?_⟩
        · intro c hc
          rcases List.mem_cons.mp hc with hc | hc
          · rw [hc]
            show a.firstPage ≤ b.lastPage
            have h1 := hwf a (by simp)
            have h2 := hwf b (by simp)
            omega
          · exact hwf c (by simp [hc])
        · rw [List.pairwise_cons]
          exact ⟨fun c hc => hb c hc, hsep3⟩
      · cases hm : mergePass (b :: rest) with
        | none =>
          rw [hm] at h
          cases h
        | some l2' =>
          rw [hm] at h
          cases h
          have hwf2 : ∀ c ∈ b :: rest, c.firstPage ≤ c.lastPage :=
            fun c hc => hwf c (List.mem_cons_of_mem a hc)
          obtain ⟨hw', hs'⟩ := ih l2' hm hwf2 hsep2
          refine ⟨?_, ?_⟩
          · intro c hc
            rcases List.mem_cons.mp hc with hc | hc
            · rw [hc]
              exact hwf a (List.mem_cons_self a _)
            · exact hw' c hc
          · rw [List.pairwise_cons]
            refine ⟨?_, hs'⟩
            intro c hc
            obtain ⟨d, hd, hdf⟩ := mergePass_firstPages _ _ hm c hc
            rw [hdf]
            exact ha d hd

/-- No two consecutive blocks are exactly adjacent (the condition under
which the `consolidateBlockList` scan reports `did = false`). -/
def noAdjPairs : List PageBlock → Prop
  | a :: b :: rest => a.lastPage + 1 ≠ b.firstPage ∧ noAdjPairs (b :: rest)
  | _ => True

/-- When `mergePass` finds no pair to merge, no consecutive pair is
adjacent. -/
theorem mergePass_stops (l : List PageBlock) (h : mergePass l = none) :
    noAdjPairs l := by
  induction l with
  | nil => exact trivial
  | cons a t ih =>
    cases t with
    | nil => exact trivial
    | cons b rest =>
      unfold mergePass at h
      split at h
      · cases h
      · rename_i hadj
        cases hm : mergePass (b :: rest) with
        | none => exact ⟨hadj, ih hm⟩
        | some l2' =>
          rw [hm] at h
          cases h

/-- A strictly separated, consecutively non-adjacent list of well-formed
blocks is pairwise non-adjacent. -/
theorem noAdj_pairwise (l : List PageBlock)
    (hwf : ∀ b ∈ l, b.firstPage ≤ b.lastPage)
    (hsep : List.Pairwise (fun a b => a.lastPage < b.firstPage) l)
    (hna : noAdjPairs l) :
    List.Pairwise (fun a b => a.lastPage + 1 < b.firstPage) l := by
  induction l with
  | nil => exact List.Pairwise.nil
  | cons a t ih =>
    cases t with
    | nil => simp
    | cons b rest =>
      rw [List.pairwise_cons] at hsep ⊢
      obtain ⟨ha, hsep2⟩ := hsep
      have hna' : a.lastPage + 1 ≠ b.firstPage ∧ noAdjPairs (b :: rest) := hna
      obtain ⟨hadj, hna2⟩ := hna'
      have hwf2 : ∀ c ∈ b :: rest, c.firstPage ≤ c.lastPage :=
        fun c hc => hwf c (List.mem_cons_of_mem a hc)
      have hsep2' := hsep2
      rw [List.pairwise_cons] at hsep2'
      refine ⟨?_, ih hwf2 hsep2 hna2⟩
      intro c hc
      have h1 := ha b (List.mem_cons_self b rest)
      rcases List.mem_cons.mp hc with hc | hc
      · subst hc
        omega
      · have h2 := hwf2 b (List.mem_cons_self b rest)
        have h3 := hsep2'.1 c hc
        omega

/-- The merge loop of `consolidateBlockList`, run with fuel at least the
list length (as `consolidateBlockList` does), turns a strictly separated
well-formed list into a pairwise non-adjacent well-formed list. -/
theorem consolidateGo_inv (fuel : Nat) (l : List PageBlock)
    (hlen : l.length ≤ fuel)
    (hwf : ∀ b ∈ l, b.firstPage ≤ b.lastPage)
    (hsep : List.Pairwise (fun a b => a.lastPage < b.firstPage) l) :
    (∀ b ∈ consolidateGo fuel l, b.firstPage ≤ b.lastPage) ∧
      List.Pairwise (fun a b => a.lastPage + 1 < b.firstPage)
        (consolidateGo fuel l) := by
  induction fuel generalizing l with
  | zero =>
    have hnil : l = [] := List.eq_nil_of_length_eq_zero (by omega)
    subst hnil
    exact ⟨fun b hb => absurd hb (List.not_mem_nil b), List.Pairwise.nil⟩
  | succ fuel ih =>
    by_cases h1 : l.length = 1
    · have hg : consolidateGo (fuel + 1) l = l := by
        unfold consolidateGo
        rw [if_pos h1]
      rw [hg]
      obtain ⟨x, rfl⟩ := List.length_eq_one.mp h1
      exact ⟨hwf, by simp⟩
    · cases hm : mergePass l with
      | none =>
        have hg : consolidateGo (fuel + 1) l = l := by
          unfold consolidateGo
          rw [if_neg h1, hm]
        rw [hg]
        exact ⟨hwf, noAdj_pairwise l hwf hsep (mergePass_stops l hm)⟩
      | some l2 =>
        have hg : consolidateGo (fuel + 1) l = consolidateGo fuel l2 := by
          show (if l.length = 1 then l
              else match mergePass l with
                | some l2 => consolidateGo fuel l2
                | none => l) = consolidateGo fuel l2
          rw [if_neg h1, hm]
        rw [hg]
        have hl2 := mergePass_length l l2 hm
        obtain ⟨hw2, hs2⟩ := mergePass_inv l l2 hm hwf hsep
        exact ih l2 (by omega) hw2 hs2

/-- The invariant restored by `addFreeBlocks`: consolidating well-formed,
pairwise disjoint blocks and sorting by descending count yields a
descending-sorted, well-formed, pairwise disjoint and non-adjacent list. -/
theorem freelist_inv (l0 : List PageBlock)
    (hwf : ∀ b ∈ l0, b.firstPage ≤ b.lastPage)
    (hdisj : List.Pairwise
      (fun a b => a.lastPage < b.firstPage ∨ b.lastPage < a.firstPage) l0) :
    List.Sorted (fun a b => b.CountPages ≤ a.CountPages)
      (sortByCountDesc (consolidateBlockList l0)) ∧
    (∀ b ∈ sortByCountDesc (consolidateBlockList l0),
        b.firstPage ≤ b.lastPage) ∧
    List.Pairwise
      (fun a b => a.lastPage + 1 < b.firstPage ∨ b.lastPage + 1 < a.firstPage)
      (sortByCountDesc (consolidateBlockList l0)) := by
  have hperm1 : (sortByFirst l0).Perm l0 := List.perm_insertionSort _ l0
  have hwf1 : ∀ b ∈ sortByFirst l0, b.firstPage ≤ b.lastPage :=
    fun b hb => hwf b (hperm1.mem_iff.1 hb)
  have hdisj1 : List.Pairwise
      (fun a b => a.lastPage < b.firstPage ∨ b.lastPage < a.firstPage)
      (sortByFirst l0) :=
    (List.Perm.pairwise_iff (fun hab => hab.elim Or.inr Or.inl) hperm1).2 hdisj
  have hsorted1 : List.Pairwise
      (fun a b : PageBlock => a.firstPage ≤ b.firstPage) (sortByFirst l0) :=
    List.sorted_insertionSort _ l0
  have hsep1 : List.Pairwise (fun a b => a.lastPage < b.firstPage)
      (sortByFirst l0) := by
    refine List.Pairwise.imp_of_mem ?_ (hsorted1.and hdisj1)
    intro a b hamem hbmem hab
    have hbwf := hwf1 b hbmem
    rcases hab.2 with h1 | h2
    · exact h1
    · omega
  have hlen1 : (sortByFirst l0).length ≤ l0.length := le_of_eq hperm1.length_eq
  obtain ⟨hw2, hs2⟩ :=
    consolidateGo_inv l0.length (sortByFirst l0) hlen1 hwf1 hsep1
  have hperm2 : (sortByCountDesc (consolidateBlockList l0)).Perm
      (consolidateBlockList l0) := List.perm_insertionSort _ _
  refine ⟨List.sorted_insertionSort _ _, ?_, ?_⟩
  · intro b hb
    exact hw2 b (hperm2.mem_iff.1 hb)
  · have hD : List.Pairwise
        (fun a b => a.lastPage + 1 < b.firstPage ∨ b.lastPage + 1 < a.firstPage)
        (consolidateBlockList l0) := hs2.imp (fun h => Or.inl h)
    exact
      (List.Perm.pairwise_iff (fun hab => hab.elim Or.inr Or.inl) hperm2).2 hD

/-- C7, amended: under the precondition the source itself states as vital
(the TODO in `addFreeBlocks`: "it is important that freeBlocks contains no
overlaps") — the existing free list together with the freed blocks is
well-formed and pairwise disjoint — `addFreeBlocks` leaves the free list
consolidated (pairwise disjoint and non-adjacent, so no two blocks overlap
or touch) and sorted in descending order of page count.  `getBlock` with a
positive specific size may still trim the head block in place and break
the descending sort (see `claim_freelist_counterexample`), so the sorted
invariant does not survive arbitrary operation sequences — it is restored
at each `addFreeBlocks`. -/
theorem claim_freelist_amended (st : DbState) (blocks : List PageBlock)
    (hwf : ∀ b ∈ st.freeBlocks ++ blocks, b.firstPage ≤ b.lastPage)
    (hdisj : List.Pairwise
      (fun a b => a.lastPage < b.firstPage ∨ b.lastPage < a.firstPage)
      (st.freeBlocks ++ blocks)) :
    List.Sorted (fun a b => b.CountPages ≤ a.CountPages)
      (addFreeBlocks st blocks).freeBlocks ∧
    (∀ b ∈ (addFreeBlocks st blocks).freeBlocks, b.firstPage ≤ b.lastPage) ∧
    List.Pairwise
      (fun a b => a.lastPage + 1 < b.firstPage ∨ b.lastPage + 1 < a.firstPage)
      (addFreeBlocks st blocks).freeBlocks :=
  freelist_inv (st.freeBlocks ++ blocks) hwf hdisj

/-- Witness for C7's amended theorem: freeing the blocks 11-20 and the
adjacent 21-25 into a free list holding 31-38 consolidates them to 11-25
and sorts the result [11-25, 31-38] descending by count; the list is
well-formed, pairwise disjoint and non-adjacent. -/
theorem claim_freelist_amended_witness :
    (∀ b ∈ ([⟨31, 38⟩] : List PageBlock) ++ [⟨11, 20⟩, ⟨21, 25⟩],
        b.firstPage ≤ b.lastPage) ∧
    List.Pairwise
      (fun a b => a.lastPage < b.firstPage ∨ b.lastPage < a.firstPage)
      (([⟨31, 38⟩] : List PageBlock) ++ [⟨11, 20⟩, ⟨21, 25⟩]) ∧
    (List.Sorted (fun a b => b.CountPages ≤ a.CountPages)
        (addFreeBlocks ⟨39, [⟨31, 38⟩], 10⟩ [⟨11, 20⟩, ⟨21, 25⟩]).freeBlocks ∧
      (∀ b ∈ (addFreeBlocks ⟨39, [⟨31, 38⟩], 10⟩
            [⟨11, 20⟩, ⟨21, 25⟩]).freeBlocks, b.firstPage ≤ b.lastPage) ∧
      List.Pairwise
        (fun a b =>
          a.lastPage + 1 < b.firstPage ∨ b.lastPage + 1 < a.firstPage)
        (addFreeBlocks ⟨39, [⟨31, 38⟩], 10⟩
          [⟨11, 20⟩, ⟨21, 25⟩]).freeBlocks) :=
  ⟨by decide, by decide,
    claim_freelist_amended ⟨39, [⟨31, 38⟩], 10⟩ [⟨11, 20⟩, ⟨21, 25⟩]
      (by decide) (by decide)⟩

/-- The interior gaps of a block list: one block per consecutive pair. -/
def interiorGaps (l : List PageBlock) : List PageBlock :=
  (l.zip (l.drop 1)).map (fun ab => ⟨ab.1.lastPage + 1, ab.2.firstPage - 1⟩)

theorem invert_eq_gaps (bs : List PageBlock) :
    invertBlockList bs = interiorGaps (sortByFirst bs) := rfl

theorem chain_lb (x : PageBlock) (l : List PageBlock)
    (hwf : ∀ b ∈ x :: l, b.firstPage ≤ b.lastPage)
    (hch : List.Chain' (fun a b => a.lastPage + 1 < b.firstPage) (x :: l)) :
    ∀ c ∈ l, x.lastPage + 1 < c.firstPage := by
  induction l generalizing x with
  | nil =>
    intro c hc
    cases hc
  | cons y l ih =>
    intro c hc
    rw [List.chain'_cons] at hch
    rcases List.mem_cons.1 hc with rfl | hc2
    · exact hch.1
    · have hy := ih y (fun b hb => hwf b (by simp_all [List.mem_cons])) hch.2 c hc2
      have hyy := hwf y (by simp [List.mem_cons])
      have hxy := hch.1
      omega

/-- For a nonempty list of well-formed blocks that is sorted and strictly
separated (`a.lastPage + 1 < b.firstPage` along the list), membership in
the interior gaps is exactly: within the overall span but in no block. -/
theorem gaps_mem (l : List PageBlock)
    (hwf : ∀ b ∈ l, b.firstPage ≤ b.lastPage)
    (hch : List.Chain' (fun a b => a.lastPage + 1 < b.firstPage) l)
    (hne : l ≠ []) (p : Nat) :
    inBlocks p (interiorGaps l) ↔
      ((∃ a ∈ l, a.firstPage ≤ p) ∧ (∃ a ∈ l, p ≤ a.lastPage) ∧ ¬ inBlocks p l) := by
  induction l with
  | nil => exact absurd rfl hne
  | cons a l ih =>
    match l with
    | [] =>
      simp only [interiorGaps, List.zip_nil_right, List.map_nil, inBlocks, inBlock]
      constructor
      · intro h
        obtain ⟨b, hb, _⟩ := h
        cases hb
      · intro ⟨⟨a1, ha1, h1⟩, ⟨a2, ha2, h2⟩, h3⟩
        rw [List.mem_singleton] at ha1 ha2
        rw [ha1] at h1
        rw [ha2] at h2
        exact absurd ⟨a, List.mem_singleton_self a, h1, h2⟩ h3
    | b :: rest =>
      have hgaps : interiorGaps (a :: b :: rest) =
          ⟨a.lastPage + 1, b.firstPage - 1⟩ :: interiorGaps (b :: rest) := by
        simp [interiorGaps]
      rw [List.chain'_cons] at hch
      have hab : a.lastPage + 1 < b.firstPage := hch.1
      have ha : a.firstPage ≤ a.lastPage := hwf a (by simp)
      have hb : b.firstPage ≤ b.lastPage := hwf b (by simp)
      have hLB : ∀ c ∈ b :: rest, b.firstPage ≤ c.firstPage := by
        intro c hc
        rcases List.mem_cons.1 hc with rfl | hc2
        · omega
        · have := chain_lb b rest (fun x hx => hwf x (by simp_all [List.mem_cons]))
            hch.2 c hc2
          omega
      have IH := ih (fun x hx => hwf x (List.mem_cons_of_mem a hx)) hch.2 (by simp)
      rw [hgaps]
      by_cases hp : p < b.firstPage
      · have hnl : ¬ inBlocks p (interiorGaps (b :: rest)) := by
          intro hcon
          rw [IH] at hcon
          obtain ⟨⟨c, hc, hcp⟩, _, _⟩ := hcon
          have := hLB c hc
          omega
        constructor
        · intro h
          obtain ⟨g, hg, hgp⟩ := h
          rcases List.mem_cons.1 hg with rfl | hg2
          · unfold inBlock at hgp
            simp only at hgp
            refine ⟨⟨a, by simp, by omega⟩, ⟨b, by simp, by omega⟩, ?_⟩
            intro ⟨c, hc, hcp⟩
            rcases List.mem_cons.1 hc with rfl | hc2
            · exact absurd hcp.2 (by omega)
            · have := hLB c hc2
              exact absurd hcp.1 (by omega)
          · exact absurd ⟨g, hg2, hgp⟩ hnl
        · intro ⟨⟨a1, ha1, h1⟩, _, h3⟩
          have hafirst : a.firstPage ≤ p := by
            rcases List.mem_cons.1 ha1 with rfl | hc2
            · exact h1
            · have := hLB a1 hc2
              omega
          have halast : a.lastPage < p := by
            by_contra hcon
            exact h3 ⟨a, by simp, hafirst, by omega⟩
          exact ⟨⟨a.lastPage + 1, b.firstPage - 1⟩, by simp,
            by constructor <;> simp <;> omega⟩
      · have hnotg0 : ¬ inBlock p ⟨a.lastPage + 1, b.firstPage - 1⟩ := by
          intro ⟨_, h2⟩
          simp only at h2
          omega
        have hnota : ¬ inBlock p a := by
          intro ⟨_, h2⟩
          omega
        constructor
        · intro h
          obtain ⟨g, hg, hgp⟩ := h
          rcases List.mem_cons.1 hg with rfl | hg2
          · exact absurd hgp hnotg0
          · have hmem := IH.1 ⟨g, hg2, hgp⟩
            obtain ⟨⟨c1, hc1, hcp1⟩, ⟨c2, hc2, hcp2⟩, h3⟩ := hmem
            refine ⟨⟨c1, List.mem_cons_of_mem a hc1, hcp1⟩,
              ⟨c2, List.mem_cons_of_mem a hc2, hcp2⟩, ?_⟩
            intro ⟨c, hc, hcp⟩
            rcases List.mem_cons.1 hc with rfl | hc3
            · exact hnota hcp
            · exact h3 ⟨c, hc3, hcp⟩
        · intro ⟨_, ⟨c2, hc2, hcp2⟩, h3⟩
          have hc2' : c2 ∈ b :: rest := by
            rcases List.mem_cons.1 hc2 with rfl | hc3
            · exact absurd hcp2 (by omega)
            · exact hc3
          have h3' : ¬ inBlocks p (b :: rest) := by
            intro ⟨c, hc, hcp⟩
            exact h3 ⟨c, List.mem_cons_of_mem a hc, hcp⟩
          have hgap := IH.2 ⟨⟨b, by simp, by omega⟩, ⟨c2, hc2', hcp2⟩, h3'⟩
          obtain ⟨g, hg, hgp⟩ := hgap
          exact ⟨g, List.mem_cons_of_mem _ hg, hgp⟩

/-- C8 counterexample: for the single used block 2-3, `invertBlockList`
returns the empty list, yet page 1 lies in the claimed range
`[1, max lastPage] = [1, 3]` and in no used block, so the result is not the
complement of the used blocks within `[1, max lastPage]`. -/
theorem claim_invert_counterexample :
    invertBlockList [⟨2, 3⟩] = [] ∧
    (1 ≤ 1 ∧ 1 ≤ (3 : Nat)) ∧
    ¬ inBlocks 1 [(⟨2, 3⟩ : PageBlock)] ∧
    ¬ inBlocks 1 (invertBlockList [⟨2, 3⟩]) := by
  refine ⟨by decide, by omega, by decide, by decide⟩

/-- C8 amended: for a non-empty list of well-formed, pairwise disjoint and
non-adjacent used blocks, `invertBlockList` returns exactly the complement
of their union within the span `[min firstPage, max lastPage]` — the
interior gaps; pages below the first used block are not returned. -/
theorem claim_invert_amended (bs : List PageBlock) (hne : bs ≠ [])
    (hwf : ∀ b ∈ bs, b.firstPage ≤ b.lastPage)
    (hdisj : List.Pairwise
      (fun a b => a.lastPage + 1 < b.firstPage ∨ b.lastPage + 1 < a.firstPage) bs)
    (p : Nat) :
    inBlocks p (invertBlockList bs) ↔
      ((∃ a ∈ bs, a.firstPage ≤ p) ∧ (∃ a ∈ bs, p ≤ a.lastPage) ∧
        ¬ inBlocks p bs) := by
  have hperm : (sortByFirst bs).Perm bs := List.perm_insertionSort _ bs
  have hwfs : ∀ b ∈ sortByFirst bs, b.firstPage ≤ b.lastPage := by
    intro b hbmem
    exact hwf b (hperm.mem_iff.1 hbmem)
  have hdisjs : List.Pairwise
      (fun a b => a.lastPage + 1 < b.firstPage ∨ b.lastPage + 1 < a.firstPage)
      (sortByFirst bs) :=
    (List.Perm.pairwise_iff (fun hab => hab.elim Or.inr Or.inl) hperm).2 hdisj
  have hsorted : List.Pairwise (fun a b : PageBlock => a.firstPage ≤ b.firstPage)
      (sortByFirst bs) := List.sorted_insertionSort _ bs
  have hch : List.Chain' (fun a b => a.lastPage + 1 < b.firstPage) (sortByFirst bs) := by
    refine List.Pairwise.chain' ?_
    refine List.Pairwise.imp_of_mem ?_ (hsorted.and hdisjs)
    intro a b hamem hbmem hab
    have hbwf := hwfs b hbmem
    rcases hab.2 with h1 | h2
    · exact h1
    · omega
  have hnes : sortByFirst bs ≠ [] := by
    intro hcon
    have hl := hperm.length_eq
    rw [hcon] at hl
    exact hne (List.eq_nil_of_length_eq_zero hl.symm)
  rw [invert_eq_gaps, gaps_mem (sortByFirst bs) hwfs hch hnes p]
  unfold inBlocks
  simp only [hperm.mem_iff]

/-- Witness for C8 amended at a concrete input: for used blocks
{6-9, 2-3} (given unsorted), the inverted list is the interior gap 4-5,
and page 5 satisfies both sides of the equivalence. -/
theorem claim_invert_amended_witness :
    inBlocks 5 (invertBlockList [⟨6, 9⟩, ⟨2, 3⟩]) ↔
      ((∃ a ∈ [(⟨6, 9⟩ : PageBlock), ⟨2, 3⟩], a.firstPage ≤ 5) ∧
        (∃ a ∈ [(⟨6, 9⟩ : PageBlock), ⟨2, 3⟩], 5 ≤ a.lastPage) ∧
        ¬ inBlocks 5 [(⟨6, 9⟩ : PageBlock), ⟨2, 3⟩]) :=
  claim_invert_amended [⟨6, 9⟩, ⟨2, 3⟩] (by decide) (by decide) (by decide) 5

/-- Embeds the `SeekOp` enum from src/fs/lsm.rs. -/
inductive SeekOp where
  | SEEK_EQ : SeekOp
  | SEEK_LE : SeekOp
  | SEEK_GE : SeekOp
deriving DecidableEq, Repr

/-- The `ICursor` capability set used by `LivingCursor` in src/fs/lsm.rs:
an arbitrary underlying cursor (`Box<ICursor>`) is modelled by its state
type `σ` and its operations. -/
structure CursorOps (σ : Type) where
  First : σ → σ
  Last : σ → σ
  Next : σ → σ
  Prev : σ → σ
  Seek : σ → List Nat → SeekOp → σ
  IsValid : σ → Bool
  ValueLength : σ → Int

namespace LivingCursor

/-- Embeds `LivingCursor::skipTombstonesForward`: keep calling `Next` on
the chain while it is valid and on a tombstone; `fuel` bounds the loop and
is chosen ample by each caller. -/
def skipTombstonesForward {σ : Type} (ops : CursorOps σ) : Nat → σ → σ
  | 0, s => s
  | fuel + 1, s =>
    if ops.IsValid s ∧ ops.ValueLength s < 0 then
      skipTombstonesForward ops fuel (ops.Next s)
    else s

/-- Embeds `LivingCursor::skipTombstonesBackward`. -/
def skipTombstonesBackward {σ : Type} (ops : CursorOps σ) : Nat → σ → σ
  | 0, s => s
  | fuel + 1, s =>
    if ops.IsValid s ∧ ops.ValueLength s < 0 then
      skipTombstonesBackward ops fuel (ops.Prev s)
    else s

/-- Embeds `LivingCursor::IsValid`: the chain must be valid and must not
sit on a tombstone. -/
def IsValid {σ : Type} (ops : CursorOps σ) (s : σ) : Bool :=
  ops.IsValid s && decide (0 ≤ ops.ValueLength s)

/-- Embeds `LivingCursor::ValueLength` (delegation to the chain). -/
def ValueLength {σ : Type} (ops : CursorOps σ) (s : σ) : Int :=
  ops.ValueLength s

/-- One cursor-mutating call on a `LivingCursor`. -/
inductive Op where
  | first : Op
  | last : Op
  | next : Op
  | prev : Op
  | seek : List Nat → SeekOp → Op

/-- Embeds the mutating methods of `impl ICursor for LivingCursor`:
First/Next and GE seeks skip tombstones forward, Last/Prev and LE seeks
skip backward, EQ seeks do not skip. -/
def apply {σ : Type} (ops : CursorOps σ) (fuel : Nat) : Op → σ → σ
  | Op.first, s => skipTombstonesForward ops fuel (ops.First s)
  | Op.last, s => skipTombstonesBackward ops fuel (ops.Last s)
  | Op.next, s => skipTombstonesForward ops fuel (ops.Next s)
  | Op.prev, s => skipTombstonesBackward ops fuel (ops.Prev s)
  | Op.seek k sop, s =>
    match sop with
    | SeekOp.SEEK_GE => skipTombstonesForward ops fuel (ops.Seek s k SeekOp.SEEK_GE)
    | SeekOp.SEEK_LE => skipTombstonesBackward ops fuel (ops.Seek s k SeekOp.SEEK_LE)
    | SeekOp.SEEK_EQ => ops.Seek s k SeekOp.SEEK_EQ

end LivingCursor

/-- C6: For any underlying cursor and any `LivingCursor` operation
(First, Last, Next, Prev, or Seek with EQ/LE/GE), if the living cursor
reports `IsValid` afterwards then `ValueLength ≥ 0` (no tombstone is
yielded); moreover an EQ seek performs no skipping, so when the chain lands
on a tombstone the living cursor reports invalid rather than skipping. -/
theorem claim_living_no_tombstone {σ : Type} (ops : CursorOps σ) (fuel : Nat)
    (op : LivingCursor.Op) (s : σ) :
    (LivingCursor.IsValid ops (LivingCursor.apply ops fuel op s) = true →
      0 ≤ LivingCursor.ValueLength ops (LivingCursor.apply ops fuel op s)) ∧
    (∀ k, LivingCursor.apply ops fuel (LivingCursor.Op.seek k SeekOp.SEEK_EQ) s =
        ops.Seek s k SeekOp.SEEK_EQ) ∧
    (∀ k, ops.ValueLength (ops.Seek s k SeekOp.SEEK_EQ) < 0 →
      LivingCursor.IsValid ops
        (LivingCursor.apply ops fuel (LivingCursor.Op.seek k SeekOp.SEEK_EQ) s) =
          false) := by
  refine ⟨?_, fun k => rfl, ?_⟩
  · intro h
    unfold LivingCursor.IsValid at h
    rw [Bool.and_eq_true] at h
    have h2 := h.2
    rw [decide_eq_true_eq] at h2
    exact h2
  · intro k htomb
    show LivingCursor.IsValid ops (ops.Seek s k SeekOp.SEEK_EQ) = false
    unfold LivingCursor.IsValid
    have : decide (0 ≤ ops.ValueLength (ops.Seek s k SeekOp.SEEK_EQ)) = false := by
      rw [decide_eq_false_iff_not]
      omega
    rw [this, Bool.and_false]

/-- A trivial concrete cursor (state `Nat`, always valid, value length 0)
used to witness C6. -/
def constCursorOps : CursorOps Nat where
  First := id
  Last := id
  Next := fun s => s + 1
  Prev := fun s => s - 1
  Seek := fun s _ _ => s
  IsValid := fun _ => true
  ValueLength := fun _ => 0

/-- Witness for C6: on the concrete cursor, after `First` the living cursor
is valid and its value length is non-negative. -/
theorem claim_living_no_tombstone_witness :
    0 ≤ LivingCursor.ValueLength constCursorOps
      (LivingCursor.apply constCursorOps 1 LivingCursor.Op.first 0) :=
  (claim_living_no_tombstone constCursorOps 1 LivingCursor.Op.first 0).1 (by decide)

/-- Writes `ba` into `f` at consecutive indices starting at `i`
(the loop of `PageBuilder::PutArray`). -/
def writeList (f : Buf) (i : Nat) : List Nat → Buf
  | [] => f
  | b :: bs => writeList (upd f i b) (i + 1) bs

/-- Embeds `write_i32_be` from src/fs/lsm.rs (big-endian, four bytes). -/
def writeI32BE (f : Buf) (pos v : Nat) : Buf :=
  upd (upd (upd (upd f pos ((v >>> 24) % 256)) (pos + 1) ((v >>> 16) % 256))
    (pos + 2) ((v >>> 8) % 256)) (pos + 3) ((v >>> 0) % 256)

/-- Embeds `read_i32_be` over a page, returning the (non-negative) value;
page numbers and counts read this way are far below `2^31`, so the `as i32`
cast of the source is the identity on them. -/
def readI32BE (page : List Nat) (pos : Nat) : Nat :=
  (page.getD pos 0 <<< 24) ||| (page.getD (pos + 1) 0 <<< 16) |||
    (page.getD (pos + 2) 0 <<< 8) ||| page.getD (pos + 3) 0

/-- Embeds `read_i16_be` over a page (same remark as `readI32BE`). -/
def readI16BE (page : List Nat) (pos : Nat) : Nat :=
  (page.getD pos 0 <<< 8) ||| page.getD (pos + 1) 0

/-- Embeds `PageBuilder` from src/fs/lsm.rs: a write cursor over a page
buffer.  The page size is passed explicitly where the source consults
`buf.len()`. -/
structure PageBuilder where
  cur : Nat
  buf : Buf

namespace PageBuilder

/-- `PageBuilder::new`: zeroed buffer, cursor 0. -/
def new : PageBuilder := ⟨0, fun _ => 0⟩

/-- `PageBuilder::Reset`: only the cursor is reset; bytes are retained. -/
def Reset (pb : PageBuilder) : PageBuilder := { pb with cur := 0 }

def PutByte (pb : PageBuilder) (x : Nat) : PageBuilder :=
  ⟨pb.cur + 1, upd pb.buf pb.cur x⟩

def PutArray (pb : PageBuilder) (ba : List Nat) : PageBuilder :=
  ⟨pb.cur + ba.length, writeList pb.buf pb.cur ba⟩

def PutInt32 (pb : PageBuilder) (v : Nat) : PageBuilder :=
  ⟨pb.cur + 4, writeI32BE pb.buf pb.cur v⟩

def PutInt16 (pb : PageBuilder) (v : Nat) : PageBuilder :=
  ⟨pb.cur + 2, upd (upd pb.buf pb.cur ((v >>> 8) % 256)) (pb.cur + 1) ((v >>> 0) % 256)⟩

def PutVarint (pb : PageBuilder) (v : Nat) : PageBuilder :=
  let r := Varint.write pb.buf pb.cur v
  ⟨r.2, r.1⟩

/-- `PageBuilder::SetPageFlag`: or `x` into byte 1. -/
def SetPageFlag (pb : PageBuilder) (x : Nat) : PageBuilder :=
  ⟨pb.cur, upd pb.buf 1 (pb.buf 1 ||| x)⟩

/-- `PageBuilder::SetLastInt32`; `none` models the source's panic when the
cursor has overrun the trailing slot. -/
def SetLastInt32 (pageSize : Nat) (pb : PageBuilder) (v : Nat) : Option PageBuilder :=
  if pb.cur > pageSize - 4 then none
  else some ⟨pb.cur, writeI32BE pb.buf (pageSize - 4) v⟩

/-- `PageBuilder::SetSecondToLastInt32`, as `SetLastInt32`. -/
def SetSecondToLastInt32 (pageSize : Nat) (pb : PageBuilder) (v : Nat) :
    Option PageBuilder :=
  if pb.cur > pageSize - 8 then none
  else some ⟨pb.cur, writeI32BE pb.buf (pageSize - 8) v⟩

/-- `PutStream2` on an in-memory stream: read up to `len` bytes from `ba`.
Returns the builder, the rest of the stream, and the byte count read. -/
def PutStream2 (pb : PageBuilder) (ba : List Nat) (len : Nat) :
    PageBuilder × List Nat × Nat :=
  let n := min len ba.length
  (⟨pb.cur + n, writeList pb.buf pb.cur (ba.take n)⟩, ba.drop n, n)

/-- `PageBuilder::Write` flushes the whole page-sized buffer. -/
def flush (pb : PageBuilder) (pageSize : Nat) : List Nat :=
  (List.range pageSize).map pb.buf

end PageBuilder

/-- The file as seen by the writer: a list of pages (page `n` at index
`n - 1`) plus the current page-aligned stream position. -/
structure FileStream where
  pages : List (List Nat)
  pos : Nat

/-- Write a page at 1-based index `n` of the page list, zero-padding any
gap (the effect of seeking past the end and writing). -/
def setPage (pageSize : Nat) (l : List (List Nat)) (n : Nat) (pg : List Nat) :
    List (List Nat) :=
  let l2 := if l.length < n then
    l ++ List.replicate (n - l.length) (List.replicate pageSize 0) else l
  l2.set (n - 1) pg

/-- Read the page with 1-based number `n`. -/
def getPage (l : List (List Nat)) (n : Nat) : List Nat := l.getD (n - 1) []

/-- `utils::SeekPage`; `none` models the panic on page number 0. -/
def seekPage (fs : FileStream) (pageNumber : Nat) : Option FileStream :=
  if pageNumber = 0 then none else some { fs with pos := pageNumber }

/-- Write the flushed builder page at the current position and advance. -/
def writePage (pageSize : Nat) (fs : FileStream) (pb : PageBuilder) : FileStream :=
  { pages := setPage pageSize fs.pages fs.pos (pb.flush pageSize), pos := fs.pos + 1 }

/-- Embeds `PendingSegment::AddBlock`: consecutive blocks are consolidated
into the last entry of the block list. -/
def addBlockPS (ps : List PageBlock) (b : PageBlock) : List PageBlock :=
  match ps.getLast? with
  | some lastB =>
    if b.firstPage = lastB.lastPage + 1 then
      ps.dropLast ++ [⟨lastB.firstPage, b.lastPage⟩]
    else ps ++ [b]
  | none => [b]

/-- Embeds `SimplePageManager` from src/fs/lsm.rs (the `IPages` instance
used here): `GetBlock` hands out consecutive 10-page blocks. -/
structure SPM where
  pageSize : Nat
  nextPage : Nat
deriving Repr

/-- `IPages::GetBlock` for `SimplePageManager`: a fresh 10-page block,
recorded in the pending segment's block list. -/
def SPM.GetBlock (spm : SPM) (ps : List PageBlock) : PageBlock × SPM × List PageBlock :=
  let blk : PageBlock := ⟨spm.nextPage, spm.nextPage + 10 - 1⟩
  (blk, { spm with nextPage := spm.nextPage + 10 }, addBlockPS ps blk)

/-- Embeds `Blob` from src/fs/lsm.rs; a `Read` stream is its byte
contents. -/
inductive Blob where
  | Stream : List Nat → Blob
  | Array : List Nat → Blob
  | Tombstone : Blob

/-- Embeds `kvp` from src/fs/lsm.rs. -/
structure kvp where
  Key : List Nat
  Value : Blob

/-- Embeds `buildFirstPage` inside `bt::writeOverflow`: overflow header
(type byte, flag byte) then up to `pageSize - 6` payload bytes.  Returns
the builder, the remaining stream, the bytes put, and `finished`. -/
def buildFirstPage (ba : List Nat) (pb : PageBuilder) (pageSize : Nat) :
    PageBuilder × List Nat × Nat × Bool :=
  let pb1 := ((pb.Reset).PutByte PageType.OVERFLOW_NODE).PutByte 0
  let room := pageSize - (2 + 4)
  let r := pb1.PutStream2 ba room
  (r.1, r.2.1, r.2.2, r.2.2 < room)

/-- Embeds `buildRegularPage`: headerless full-page payload. -/
def buildRegularPage (ba : List Nat) (pb : PageBuilder) (pageSize : Nat) :
    PageBuilder × List Nat × Nat × Bool :=
  let pb1 := pb.Reset
  let room := pageSize
  let r := pb1.PutStream2 ba room
  (r.1, r.2.1, r.2.2, r.2.2 < room)

/-- Embeds `buildBoundaryPage`: headerless payload leaving the trailing
int32 slot free. -/
def buildBoundaryPage (ba : List Nat) (pb : PageBuilder) (pageSize : Nat) :
    PageBuilder × List Nat × Nat × Bool :=
  let pb1 := pb.Reset
  let room := pageSize - 4
  let r := pb1.PutStream2 ba room
  (r.1, r.2.1, r.2.2, r.2.2 < room)

/-- Embeds the loop of `writeRegularPages` inside `bt::writeOverflow`;
the first argument is the remaining iteration budget `max - i`. -/
def writeRegularPagesGo (pageSize : Nat) :
    Nat → Nat → Nat → PageBuilder → FileStream → List Nat →
      Nat × Nat × Bool × PageBuilder × FileStream × List Nat
  | 0, i, sofar, pb, fs, ba => (i, sofar, false, pb, fs, ba)
  | rem + 1, i, sofar, pb, fs, ba =>
    let r := buildRegularPage ba pb pageSize
    let pb2 := r.1
    let ba2 := r.2.1
    let put := r.2.2.1
    let finished := r.2.2.2
    if put = 0 then (i, sofar, true, pb2, fs, ba2)
    else
      let sofar2 := sofar + put
      let fs2 := writePage pageSize fs pb2
      if finished then (i + 1, sofar2, true, pb2, fs2, ba2)
      else writeRegularPagesGo pageSize rem (i + 1) sofar2 pb2 fs2 ba2

/-- Embeds `writeRegularPages`: write up to `mx` data pages. -/
def writeRegularPages (mx sofar : Nat) (pb : PageBuilder) (fs : FileStream)
    (ba : List Nat) (pageSize : Nat) :
    Nat × Nat × Bool × PageBuilder × FileStream × List Nat :=
  writeRegularPagesGo pageSize mx 0 sofar pb fs ba

/-- Embeds `writeOneBlock` inside `bt::writeOverflow` (the whole-overflow
loop; each iteration emits one block).  `fuel` bounds the loop; each
iteration consumes at least one stream byte, so `ba.length + 2` is ample.
`none` models a source panic or fuel exhaustion. -/
def writeOneBlock (pageSize : Nat) :
    Nat → Nat → PageBlock → FileStream → List Nat → PageBuilder → PageBuilder →
      SPM → List PageBlock →
      Option (Nat × PageBlock × FileStream × SPM × List PageBlock)
  | 0, _, _, _, _, _, _, _, _ => none
  | fuel + 1, sofar, firstBlk, fs, ba, pbOverflow, pbFirst, spm, token =>
    let r := buildFirstPage ba pbFirst pageSize
    let pbF1 := r.1
    let ba1 := r.2.1
    let putFirst := r.2.2.1
    let finished := r.2.2.2
    if putFirst = 0 then some (sofar, firstBlk, fs, spm, token)
    else
      let sofar1 := sofar + putFirst
      if firstBlk.firstPage = firstBlk.lastPage then do
        let pbF2 := pbF1.SetPageFlag PageFlag.FLAG_BOUNDARY_NODE
        let gb := SPM.GetBlock spm token
        let blk := gb.1
        let spm2 := gb.2.1
        let token2 := gb.2.2
        let pbF3 ← pbF2.SetLastInt32 pageSize blk.firstPage
        let fs2 := writePage pageSize fs pbF3
        let fs3 ← seekPage fs2 blk.firstPage
        if ¬ finished then
          writeOneBlock pageSize fuel sofar1 blk fs3 ba1 pbOverflow pbF3 spm2 token2
        else some (sofar1, blk, fs3, spm2, token2)
      else
        let firstRegularPageNumber := firstBlk.firstPage + 1
        if finished then do
          let pbF2 ← pbF1.SetLastInt32 pageSize 0
          let fs2 := writePage pageSize fs pbF2
          some (sofar1, ⟨firstRegularPageNumber, firstBlk.lastPage⟩, fs2, spm, token)
        else do
          let fs2 ← seekPage fs firstRegularPageNumber
          let availableBeforeBoundary :=
            if firstBlk.lastPage > 0 then firstBlk.lastPage - firstRegularPageNumber
            else 18446744073709551615
          let w := writeRegularPages availableBeforeBoundary sofar1 pbOverflow fs2
            ba1 pageSize
          let numRegularPages := w.1
          let sofar2 := w.2.1
          let finished2 := w.2.2.1
          let pbO2 := w.2.2.2.1
          let fs3 := w.2.2.2.2.1
          let ba2 := w.2.2.2.2.2
          if finished2 then do
            let pbF2 ← pbF1.SetLastInt32 pageSize numRegularPages
            let fs4 ← seekPage fs3 firstBlk.firstPage
            let fs5 := writePage pageSize fs4 pbF2
            let blk : PageBlock :=
              ⟨firstRegularPageNumber + numRegularPages, firstBlk.lastPage⟩
            let fs6 ← seekPage fs5 blk.firstPage
            some (sofar2, blk, fs6, spm, token)
          else do
            let b := buildBoundaryPage ba2 pbO2 pageSize
            let pbO3 := b.1
            let ba3 := b.2.1
            let putBoundary := b.2.2.1
            let finished3 := b.2.2.2
            if putBoundary = 0 then do
              let pbF2 ← pbF1.SetLastInt32 pageSize numRegularPages
              let fs4 ← seekPage fs3 firstBlk.firstPage
              let fs5 := writePage pageSize fs4 pbF2
              let blk : PageBlock :=
                ⟨firstRegularPageNumber + numRegularPages, firstBlk.lastPage⟩
              let fs6 ← seekPage fs5 firstBlk.lastPage
              some (sofar2, blk, fs6, spm, token)
            else do
              let sofar3 := sofar2 + putBoundary
              let gb := SPM.GetBlock spm token
              let blk := gb.1
              let spm2 := gb.2.1
              let token2 := gb.2.2
              let pbO4 ← pbO3.SetLastInt32 pageSize blk.firstPage
              let fs4 := writePage pageSize fs3 pbO4
              let pbF2 ← (pbF1.SetPageFlag
                PageFlag.FLAG_ENDS_ON_BOUNDARY).SetLastInt32 pageSize
                (numRegularPages + 1)
              let fs5 ← seekPage fs4 firstBlk.firstPage
              let fs6 := writePage pageSize fs5 pbF2
              let fs7 ← seekPage fs6 blk.firstPage
              if finished3 then
                writeOneBlock pageSize fuel sofar3 blk fs7 ba3 pbO4 pbF2 spm2 token2
              else some (sofar3, blk, fs7, spm2, token2)

/-- Embeds `bt::writeOverflow`: note the source begins a fresh
`PendingSegment` of its own for the blocks it allocates. -/
def writeOverflow (startingBlock : PageBlock) (ba : List Nat) (spm : SPM)
    (fs : FileStream) : Option (Nat × PageBlock × FileStream × SPM) := do
  let pageSize := spm.pageSize
  let r ← writeOneBlock pageSize (ba.length + 2) 0 startingBlock fs ba
    PageBuilder.new PageBuilder.new spm []
  some (r.1, r.2.1, r.2.2.1, r.2.2.2.1)

/-- Embeds `KeyLocation` from src/fs/lsm.rs. -/
inductive KeyLocation where
  | Inline : KeyLocation
  | Overflow : Nat → KeyLocation

/-- Embeds `ValueLocation` from src/fs/lsm.rs. -/
inductive ValueLocation where
  | Tombstone : ValueLocation
  | Buffer : List Nat → ValueLocation
  | Overflowed : Nat → Nat → ValueLocation

/-- Embeds `LeafPair`. -/
structure LeafPair where
  key : List Nat
  kLoc : KeyLocation
  vLoc : ValueLocation

/-- Embeds `pgitem`. -/
structure pgitem where
  page : Nat
  key : List Nat

/-- Embeds `LeafState`. -/
structure LeafState where
  sofarLeaf : Nat
  keys : List LeafPair
  prevLeaf : Nat
  prefixLen : Nat
  firstLeaf : Nat
  leaves : List pgitem
  blk : PageBlock

/-- `LEAF_PAGE_OVERHEAD` from `bt::writeLeaves` (2 + 4 + 2 + 4). -/
def LEAF_PAGE_OVERHEAD : Nat := 2 + 4 + 2 + 4

/-- `neededForOverflowPageNumber` from `bt::writeLeaves`. -/
def neededForOverflowPageNumber : Nat := 4

/-- Embeds `kLocNeed`. -/
def kLocNeed (k : List Nat) (kloc : KeyLocation) (prefixLen : Nat) : Nat :=
  match kloc with
  | KeyLocation.Inline =>
    1 + Varint.SpaceNeededFor k.length + k.length - prefixLen
  | KeyLocation.Overflow _ =>
    1 + Varint.SpaceNeededFor k.length + neededForOverflowPageNumber

/-- Embeds `vLocNeed`. -/
def vLocNeed : ValueLocation → Nat
  | ValueLocation.Tombstone => 1
  | ValueLocation.Buffer vbuf => 1 + Varint.SpaceNeededFor vbuf.length + vbuf.length
  | ValueLocation.Overflowed vlen _ =>
    1 + Varint.SpaceNeededFor vlen + neededForOverflowPageNumber

/-- Embeds `leafPairSize`. -/
def leafPairSize (prefixLen : Nat) (lp : LeafPair) : Nat :=
  kLocNeed lp.key lp.kLoc prefixLen + vLocNeed lp.vLoc

/-- Embeds `defaultPrefixLen`. -/
def defaultPrefixLen (k : List Nat) : Nat :=
  if k.length > 255 then 255 else k.length

/-- A placeholder `LeafPair` for `headD`; the source indexes `keys[0]`
only when `keys` is non-empty. -/
def dfltLeafPair : LeafPair := ⟨[], KeyLocation.Inline, ValueLocation.Tombstone⟩

/-- Embeds `buildLeaf` from `bt::writeLeaves`: leaf header, shared prefix,
key count, then each pair in order. -/
def buildLeaf (st : LeafState) (pb : PageBuilder) : PageBuilder :=
  let pb1 := (((pb.Reset).PutByte PageType.LEAF_NODE).PutByte 0).PutInt32 st.prevLeaf
  let pb2 := pb1.PutByte (st.prefixLen % 256)
  let pb3 := if st.prefixLen > 0 then
      pb2.PutArray ((st.keys.headD dfltLeafPair).key.take st.prefixLen)
    else pb2
  let pb4 := pb3.PutInt16 st.keys.length
  st.keys.foldl (fun pb lp =>
    let pbk :=
      match lp.kLoc with
      | KeyLocation.Inline =>
        ((pb.PutByte 0).PutVarint lp.key.length).PutArray (lp.key.drop st.prefixLen)
      | KeyLocation.Overflow kpage =>
        ((pb.PutByte ValueFlag.FLAG_OVERFLOW).PutVarint lp.key.length).PutInt32 kpage
    match lp.vLoc with
    | ValueLocation.Tombstone => pbk.PutByte ValueFlag.FLAG_TOMBSTONE
    | ValueLocation.Buffer vbuf =>
      ((pbk.PutByte 0).PutVarint vbuf.length).PutArray vbuf
    | ValueLocation.Overflowed vlen vpage =>
      ((pbk.PutByte ValueFlag.FLAG_OVERFLOW).PutVarint vlen).PutInt32 vpage) pb4

/-- The writer context threaded through `bt::writeLeaves`: leaf state, the
shared page builder, the stream, the page manager, and the pending
segment's block list. -/
structure LWCtx where
  st : LeafState
  pb : PageBuilder
  fs : FileStream
  spm : SPM
  token : List PageBlock

/-- Embeds `writeLeaf` from `bt::writeLeaves`.  `isRootPage` only
suppresses boundary-block allocation; no flag is set from it. -/
def writeLeaf (pageSize : Nat) (isRootPage : Bool) (c : LWCtx) : Option LWCtx := do
  let pb2 := buildLeaf c.st c.pb
  let thisPageNumber := c.st.blk.firstPage
  let firstLeaf := if c.st.leaves.isEmpty then thisPageNumber else c.st.firstLeaf
  let r ←
    if isRootPage then
      some ((⟨thisPageNumber + 1, c.st.blk.lastPage⟩ : PageBlock), pb2, c.spm, c.token)
    else if thisPageNumber = c.st.blk.lastPage then do
      let pbB := pb2.SetPageFlag PageFlag.FLAG_BOUNDARY_NODE
      let gb := SPM.GetBlock c.spm c.token
      let pbB2 ← pbB.SetLastInt32 pageSize gb.1.firstPage
      some (gb.1, pbB2, gb.2.1, gb.2.2)
    else
      some ((⟨thisPageNumber + 1, c.st.blk.lastPage⟩ : PageBlock), pb2, c.spm, c.token)
  let nextBlk := r.1
  let pb3 := r.2.1
  let spm2 := r.2.2.1
  let token2 := r.2.2.2
  let fs2 := writePage pageSize c.fs pb3
  let fs3 ←
    if nextBlk.firstPage ≠ thisPageNumber + 1 then seekPage fs2 nextBlk.firstPage
    else some fs2
  let pg : pgitem := ⟨thisPageNumber, (c.st.keys.headD dfltLeafPair).key⟩
  some ⟨{ sofarLeaf := 0, keys := [], prevLeaf := thisPageNumber, prefixLen := 0,
          firstLeaf := firstLeaf, leaves := c.st.leaves ++ [pg], blk := nextBlk },
        pb3, fs3, spm2, token2⟩

/-- The per-pair body of the `for pair in source` loop of
`bt::writeLeaves`: decide key/value placement (writing overflow chains as
needed), then fit the pair into the current leaf, flushing it first when
full. -/
def writeLeavesPair (pageSize maxKeyInline : Nat) (c : LWCtx) (pair : kvp) :
    Option LWCtx := do
  let k := pair.Key
  let r1 ←
    if k.length ≤ maxKeyInline then
      some (c.st.blk, KeyLocation.Inline, c.fs, c.spm)
    else do
      let vPage := c.st.blk.firstPage
      let w ← writeOverflow c.st.blk k c.spm c.fs
      some (w.2.1, KeyLocation.Overflow vPage, w.2.2.1, w.2.2.2)
  let blkAfterKey := r1.1
  let kloc := r1.2.1
  let fs1 := r1.2.2.1
  let spm1 := r1.2.2.2
  let availableOnNewPageAfterKey :=
    pageSize - LEAF_PAGE_OVERHEAD - 1 - 1 - Varint.SpaceNeededFor k.length -
      k.length - 1
  let maxValueInline :=
    if availableOnNewPageAfterKey > 0 then
      let neededForVarintLen := Varint.SpaceNeededFor availableOnNewPageAfterKey
      let avail2 := availableOnNewPageAfterKey - neededForVarintLen
      if avail2 > 0 then avail2 else 0
    else 0
  let r2 ←
    match pair.Value with
    | Blob.Tombstone => some (blkAfterKey, ValueLocation.Tombstone, fs1, spm1)
    | v =>
      match kloc with
      | KeyLocation.Inline =>
        if maxValueInline = 0 then
          match v with
          | Blob.Tombstone => some (blkAfterKey, ValueLocation.Tombstone, fs1, spm1)
          | Blob.Stream strm => do
            let valuePage := blkAfterKey.firstPage
            let w ← writeOverflow blkAfterKey strm spm1 fs1
            some (w.2.1, ValueLocation.Overflowed w.1 valuePage, w.2.2.1, w.2.2.2)
          | Blob.Array a =>
            if a.length = 0 then
              some (blkAfterKey, ValueLocation.Buffer a, fs1, spm1)
            else do
              let valuePage := blkAfterKey.firstPage
              let w ← writeOverflow blkAfterKey a spm1 fs1
              some (w.2.1, ValueLocation.Overflowed w.1 valuePage, w.2.2.1, w.2.2.2)
        else
          match v with
          | Blob.Tombstone => some (blkAfterKey, ValueLocation.Tombstone, fs1, spm1)
          | Blob.Stream strm =>
            let vread := min (maxValueInline + 1) strm.length
            let vbuf := strm.take vread
            if vread < maxValueInline then
              some (blkAfterKey, ValueLocation.Buffer vbuf, fs1, spm1)
            else do
              let valuePage := blkAfterKey.firstPage
              let w ← writeOverflow blkAfterKey (vbuf ++ strm.drop vread) spm1 fs1
              some (w.2.1, ValueLocation.Overflowed w.1 valuePage, w.2.2.1, w.2.2.2)
          | Blob.Array a =>
            if a.length < maxValueInline then
              some (blkAfterKey, ValueLocation.Buffer a, fs1, spm1)
            else do
              let valuePage := blkAfterKey.firstPage
              let w ← writeOverflow blkAfterKey a spm1 fs1
              some (w.2.1, ValueLocation.Overflowed w.1 valuePage, w.2.2.1, w.2.2.2)
      | KeyLocation.Overflow _ =>
        match v with
        | Blob.Tombstone => some (blkAfterKey, ValueLocation.Tombstone, fs1, spm1)
        | Blob.Stream strm => do
          let valuePage := blkAfterKey.firstPage
          let w ← writeOverflow blkAfterKey strm spm1 fs1
          some (w.2.1, ValueLocation.Overflowed w.1 valuePage, w.2.2.1, w.2.2.2)
        | Blob.Array a =>
          if a.length = 0 then
            some (blkAfterKey, ValueLocation.Buffer a, fs1, spm1)
          else do
            let valuePage := blkAfterKey.firstPage
            let w ← writeOverflow blkAfterKey a spm1 fs1
            some (w.2.1, ValueLocation.Overflowed w.1 valuePage, w.2.2.1, w.2.2.2)
  let blkAfterValue := r2.1
  let vloc := r2.2.1
  let fs2 := r2.2.2.1
  let spm2 := r2.2.2.2
  let st1 := { c.st with blk := blkAfterValue }
  let newPrefixLen :=
    if st1.keys.length = 0 then defaultPrefixLen k
    else bcmp.PrefixMatch (st1.keys.headD dfltLeafPair).key k st1.prefixLen
  let sofar :=
    if newPrefixLen < st1.prefixLen then
      st1.keys.foldl (fun sum lp => sum + leafPairSize newPrefixLen lp) 0
    else st1.sofarLeaf
  let available := pageSize - (sofar + LEAF_PAGE_OVERHEAD + 1 + newPrefixLen)
  let needed := kLocNeed k kloc newPrefixLen + vLocNeed vloc
  let fit := needed ≤ available
  let writeThisPage := (¬ st1.keys.isEmpty) ∧ (¬ fit)
  let c2 ←
    if writeThisPage then
      writeLeaf pageSize false ⟨st1, c.pb, fs2, spm2, c.token⟩
    else
      some (⟨st1, c.pb, fs2, spm2, c.token⟩ : LWCtx)
  let newPrefixLen2 :=
    if c2.st.keys.isEmpty then defaultPrefixLen k
    else bcmp.PrefixMatch (c2.st.keys.headD dfltLeafPair).key k c2.st.prefixLen
  let sofar2 :=
    if newPrefixLen2 < c2.st.prefixLen then
      c2.st.keys.foldl (fun sum lp => sum + leafPairSize newPrefixLen2 lp) 0
    else c2.st.sofarLeaf
  let lp : LeafPair := ⟨k, kloc, vloc⟩
  some ⟨{ c2.st with
          sofarLeaf := sofar2 + leafPairSize newPrefixLen2 lp,
          keys := c2.st.keys ++ [lp],
          prefixLen := newPrefixLen2 },
        c2.pb, c2.fs, c2.spm, c2.token⟩

/-- Embeds the body of `bt::writeLeaves`: fold the sorted pair source
through `writeLeavesPair`, then flush the final leaf (with
`isRootNode = st.leaves.is_empty()`). -/
def writeLeaves (leavesBlk : PageBlock) (source : List kvp) (pb : PageBuilder)
    (fs : FileStream) (spm : SPM) (token : List PageBlock) :
    Option (PageBlock × List pgitem × Nat × PageBuilder × FileStream × SPM ×
      List PageBlock) := do
  let pageSize := spm.pageSize
  let maxKeyInline :=
    pageSize - LEAF_PAGE_OVERHEAD - 1 - 1 - Varint.SpaceNeededFor pageSize - 1 -
      9 - neededForOverflowPageNumber
  let st0 : LeafState :=
    { sofarLeaf := 0, firstLeaf := 0, prevLeaf := 0, keys := [], prefixLen := 0,
      leaves := [], blk := leavesBlk }
  let c ← source.foldlM (writeLeavesPair pageSize maxKeyInline)
    (⟨st0, pb, fs, spm, token⟩ : LWCtx)
  let c2 ←
    if ¬ c.st.keys.isEmpty then
      writeLeaf pageSize c.st.leaves.isEmpty c
    else some c
  some (c2.st.blk, c2.st.leaves, c2.st.firstLeaf, c2.pb, c2.fs, c2.spm, c2.token)

/-- Embeds `ParentState`. -/
structure ParentState where
  sofar : Nat
  nextGeneration : List pgitem
  blk : PageBlock

/-- `PARENT_PAGE_OVERHEAD` from `bt::writeParentNodes` (2 + 2 + 5 + 4). -/
def PARENT_PAGE_OVERHEAD : Nat := 2 + 2 + 5 + 4

/-- Embeds `calcAvailable`. -/
def calcAvailable (currentSize : Nat) (couldBeRoot : Bool) (pageSize : Nat) : Nat :=
  let basicSize := pageSize - currentSize
  let allowanceForRootNode := if couldBeRoot then 4 else 0
  basicSize - allowanceForRootNode

/-- Embeds `buildParentPage`: count, the n+1 child pointers, then the n
keys (inline or overflowed; the overflow map is keyed by item index,
newest entry first as with `HashMap::insert`). -/
def buildParentPage (items : List pgitem) (lastPtr : Nat)
    (overflows : List (Nat × Nat)) (pb : PageBuilder) : PageBuilder :=
  let pb1 := (((pb.Reset).PutByte PageType.PARENT_NODE).PutByte 0).PutInt16
    items.length
  let pb2 := items.foldl (fun pb x => pb.PutVarint x.page) pb1
  let pb3 := pb2.PutVarint lastPtr
  (items.enum).foldl (fun pb ix =>
    match overflows.lookup ix.1 with
    | some pg =>
      ((pb.PutByte ValueFlag.FLAG_OVERFLOW).PutVarint ix.2.key.length).PutInt32 pg
    | none =>
      ((pb.PutByte 0).PutVarint ix.2.key.length).PutArray ix.2.key) pb3

/-- Embeds `writeParentPage` from `bt::writeParentNodes`: the root page
gets `FLAG_ROOT_NODE` and the first/last-leaf tail ints; a page landing on
its block's last page gets `FLAG_BOUNDARY_NODE` and a next-block
pointer. -/
def writeParentPage (pageSize lastLeaf firstLeaf : Nat) (st : ParentState)
    (items : List pgitem) (overflows : List (Nat × Nat)) (pair : pgitem)
    (isRootNode : Bool) (pb : PageBuilder) (fs : FileStream) (spm : SPM)
    (token : List PageBlock) :
    Option (ParentState × PageBuilder × FileStream × SPM × List PageBlock) := do
  let pagenum := pair.page
  let thisPageNumber := st.blk.firstPage
  let pb2 := buildParentPage items pagenum overflows pb
  let r ←
    if isRootNode then do
      let pbR := pb2.SetPageFlag PageFlag.FLAG_ROOT_NODE
      let pbR2 ← pbR.SetSecondToLastInt32 pageSize firstLeaf
      let pbR3 ← pbR2.SetLastInt32 pageSize lastLeaf
      some ((⟨thisPageNumber + 1, st.blk.lastPage⟩ : PageBlock), pbR3, spm, token)
    else
      if st.blk.firstPage = st.blk.lastPage then do
        let pbB := pb2.SetPageFlag PageFlag.FLAG_BOUNDARY_NODE
        let gb := SPM.GetBlock spm token
        let pbB2 ← pbB.SetLastInt32 pageSize gb.1.firstPage
        some (gb.1, pbB2, gb.2.1, gb.2.2)
      else
        some ((⟨thisPageNumber + 1, st.blk.lastPage⟩ : PageBlock), pb2, spm, token)
  let nextBlk := r.1
  let pb3 := r.2.1
  let spm2 := r.2.2.1
  let token2 := r.2.2.2
  let fs2 := writePage pageSize fs pb3
  let fs3 ←
    if nextBlk.firstPage ≠ thisPageNumber + 1 then seekPage fs2 nextBlk.firstPage
    else some fs2
  let pg : pgitem := ⟨thisPageNumber, pair.key⟩
  some (⟨0, st.nextGeneration ++ [pg], nextBlk⟩, pb3, fs3, spm2, token2)

/-- The `for i in 0 .. children.len()-1` loop of `bt::writeParentNodes`,
recursing over all children but the last. -/
def writeParentNodesGo (pageSize lastLeaf firstLeaf : Nat) :
    List pgitem → ParentState → List pgitem → List (Nat × Nat) → PageBuilder →
      FileStream → SPM → List PageBlock →
      Option (ParentState × List pgitem × List (Nat × Nat) × PageBuilder ×
        FileStream × SPM × List PageBlock)
  | [], st, items, overflows, pb, fs, spm, token =>
    some (st, items, overflows, pb, fs, spm, token)
  | pair :: restFront, st, items, overflows, pb, fs, spm, token => do
    let pagenum := pair.page
    let neededEitherWay := 1 + Varint.SpaceNeededFor pair.key.length +
      Varint.SpaceNeededFor pagenum
    let neededForInline := neededEitherWay + pair.key.length
    let neededForOverflow := neededEitherWay + 4
    let couldBeRoot := st.nextGeneration.isEmpty
    let available := calcAvailable st.sofar couldBeRoot pageSize
    let fitsInline := neededForInline ≤ available
    let wouldFitInlineOnNextPage := neededForInline ≤ pageSize - PARENT_PAGE_OVERHEAD
    let fitsOverflow := neededForOverflow ≤ available
    let writeThisPage := (¬ fitsInline) ∧ (wouldFitInlineOnNextPage ∨ (¬ fitsOverflow))
    let r1 ←
      if writeThisPage then do
        let w ← writeParentPage pageSize lastLeaf firstLeaf st items overflows pair
          false pb fs spm token
        some (w.1, items, overflows, w.2.1, w.2.2.1, w.2.2.2.1, w.2.2.2.2)
      else some (st, items, overflows, pb, fs, spm, token)
    let st1 := r1.1
    let items1 := r1.2.1
    let overflows1 := r1.2.2.1
    let pb1 := r1.2.2.2.1
    let fs1 := r1.2.2.2.2.1
    let spm1 := r1.2.2.2.2.2.1
    let token1 := r1.2.2.2.2.2.2
    let r2 :=
      if st1.sofar = 0 then
        ({ st1 with sofar := PARENT_PAGE_OVERHEAD }, ([] : List pgitem))
      else (st1, items1)
    let st2 := r2.1
    let items3 := r2.2 ++ [pair]
    if neededForInline ≤ calcAvailable st2.sofar st2.nextGeneration.isEmpty pageSize
    then
      writeParentNodesGo pageSize lastLeaf firstLeaf restFront
        { st2 with sofar := st2.sofar + neededForInline } items3 overflows1 pb1 fs1
        spm1 token1
    else do
      let keyOverflowFirstPage := st2.blk.firstPage
      let w ← writeOverflow st2.blk pair.key spm1 fs1
      writeParentNodesGo pageSize lastLeaf firstLeaf restFront
        { st2 with sofar := st2.sofar + neededForOverflow, blk := w.2.1 } items3
        ((items3.length - 1, keyOverflowFirstPage) :: overflows1) pb1 w.2.2.1
        w.2.2.2 token1

/-- Embeds `bt::writeParentNodes`: builds one parent level over
`children`, consuming the final child as the trailing pointer of the last
page of the level. -/
def writeParentNodes (startingBlk : PageBlock) (children : List pgitem)
    (pageSize : Nat) (fs : FileStream) (spm : SPM) (token : List PageBlock)
    (lastLeaf firstLeaf : Nat) (pb : PageBuilder) :
    Option (PageBlock × List pgitem × PageBuilder × FileStream × SPM ×
      List PageBlock) := do
  let lastPair ← children.getLast?
  let g ← writeParentNodesGo pageSize lastLeaf firstLeaf children.dropLast
    ⟨0, [], startingBlk⟩ [] [] pb fs spm token
  let st := g.1
  let w ← writeParentPage pageSize lastLeaf firstLeaf st g.2.1 g.2.2.1 lastPair
    st.nextGeneration.isEmpty g.2.2.2.1 g.2.2.2.2.1 g.2.2.2.2.2.1 g.2.2.2.2.2.2
  some (w.1.blk, w.1.nextGeneration, w.2.1, w.2.2.1, w.2.2.2.1, w.2.2.2.2)

/-- The `loop` in the body of `CreateFromSortedSequenceOfKeyValuePairs`:
write parent levels until a level has exactly one page (the root); `fuel`
bounds the number of levels. -/
def parentLoop (pageSize lastLeaf firstLeaf : Nat) :
    Nat → PageBlock → List pgitem → PageBuilder → FileStream → SPM →
      List PageBlock → Option (Nat × FileStream × SPM × List PageBlock)
  | 0, _, _, _, _, _, _ => none
  | fuel + 1, blk, children, pb, fs, spm, token => do
    let w ← writeParentNodes blk children pageSize fs spm token lastLeaf firstLeaf pb
    let newChildren := w.2.1
    if newChildren.length = 1 then
      some ((newChildren.headD ⟨0, []⟩).page, w.2.2.2.1, w.2.2.2.2.1, w.2.2.2.2.2)
    else
      parentLoop pageSize lastLeaf firstLeaf fuel w.1 newChildren w.2.2.1
        w.2.2.2.1 w.2.2.2.2.1 w.2.2.2.2.2

/-- Embeds `bt::CreateFromSortedSequenceOfKeyValuePairs` over the
`SimplePageManager`: returns the root page number together with the final
file and page-manager states.  Note `lastLeaf` is taken from `leaves[0]`,
the FIRST leaf written (as in the source). -/
def CreateFromSortedSequenceOfKeyValuePairs (fs : FileStream) (spm : SPM)
    (source : List kvp) : Option (Nat × FileStream × SPM) := do
  let pageSize := spm.pageSize
  let pb := PageBuilder.new
  let token : List PageBlock := []
  let gb := SPM.GetBlock spm token
  let startingBlk := gb.1
  let fs1 ← seekPage fs startingBlk.firstPage
  let wl ← writeLeaves startingBlk source pb fs1 gb.2.1 gb.2.2
  let blkAfterLeaves := wl.1
  let leaves := wl.2.1
  let firstLeaf := wl.2.2.1
  let pb2 := wl.2.2.2.1
  let fs2 := wl.2.2.2.2.1
  let spm2 := wl.2.2.2.2.2.1
  let token2 := wl.2.2.2.2.2.2
  match leaves with
  | [] => none
  | l0 :: _ => do
    let lastLeaf := l0.page
    let r ← parentLoop pageSize lastLeaf firstLeaf (leaves.length + 2)
      blkAfterLeaves leaves pb2 fs2 spm2 token2
    some (r.1, r.2.1, r.2.2.1)

/-- Embeds the state of `myOverflowReadStream` from src/fs/lsm.rs; the
open file is the page list. -/
structure OvflState where
  pages : List (List Nat)
  pageSize : Nat
  len : Nat
  firstPage : Nat
  buf : List Nat
  currentPage : Nat
  sofarOverall : Nat
  sofarThisPage : Nat
  firstPageInBlock : Nat
  offsetToLastPageInThisBlock : Nat
  countRegularDataPagesInBlock : Nat
  boundaryPageNumber : Nat
  bytesOnThisPage : Nat
  offsetOnThisPage : Nat

/-- `myOverflowReadStream::GetLastInt32`. -/
def OvflState.GetLastInt32 (s : OvflState) : Nat := readI32BE s.buf (s.pageSize - 4)

/-- `myOverflowReadStream::ReadPage`: read the current page into the
buffer and derive the in-page geometry. -/
def OvflState.ReadPage (s : OvflState) : Option OvflState := do
  if s.currentPage = 0 then none
  else
    let buf := getPage s.pages s.currentPage
    let s1 := { s with buf := buf, sofarThisPage := 0 }
    if s1.currentPage = s1.firstPageInBlock then
      some { s1 with bytesOnThisPage := s1.pageSize - (2 + 4), offsetOnThisPage := 2 }
    else if s1.currentPage = s1.boundaryPageNumber then
      some { s1 with bytesOnThisPage := s1.pageSize - 4, offsetOnThisPage := 0 }
    else
      some { s1 with bytesOnThisPage := s1.pageSize, offsetOnThisPage := 0 }

/-- `myOverflowReadStream::ReadFirstPage`. -/
def OvflState.ReadFirstPage (s : OvflState) : Option OvflState := do
  let s1 ← OvflState.ReadPage { s with firstPageInBlock := s.currentPage }
  if s1.buf.getD 0 0 ≠ PageType.OVERFLOW_NODE then none
  else if CheckPageFlag s1.buf PageFlag.FLAG_BOUNDARY_NODE then
    some { s1 with
      boundaryPageNumber := s1.currentPage,
      offsetToLastPageInThisBlock := 0,
      countRegularDataPagesInBlock := 0 }
  else
    let off := s1.GetLastInt32
    if CheckPageFlag s1.buf PageFlag.FLAG_ENDS_ON_BOUNDARY then
      some { s1 with
        offsetToLastPageInThisBlock := off,
        boundaryPageNumber := s1.currentPage + off,
        countRegularDataPagesInBlock := off - 1 }
    else
      some { s1 with
        offsetToLastPageInThisBlock := off,
        boundaryPageNumber := 0,
        countRegularDataPagesInBlock := off }

/-- `myOverflowReadStream::Read`: produce up to `wanted` bytes, following
boundary pointers and using the direct multi-page path for large reads. -/
def OvflState.Read (s : OvflState) (wanted : Nat) : Option (List Nat × OvflState) := do
  if s.sofarOverall ≥ s.len then some ([], s)
  else
    let r1 ←
      if s.sofarThisPage ≥ s.bytesOnThisPage then
        if s.currentPage = s.boundaryPageNumber then do
          let s2 ← OvflState.ReadFirstPage { s with currentPage := s.GetLastInt32 }
          some (false, s2)
        else
          let maybeDataPage := s.currentPage + 1
          let isDataPage :=
            if s.boundaryPageNumber > 0 then
              (s.len - s.sofarOverall ≥ s.pageSize) ∧
                (s.countRegularDataPagesInBlock > 0) ∧
                (maybeDataPage > s.firstPageInBlock) ∧
                (maybeDataPage < s.boundaryPageNumber)
            else
              (s.len - s.sofarOverall ≥ s.pageSize) ∧
                (s.countRegularDataPagesInBlock > 0) ∧
                (maybeDataPage > s.firstPageInBlock) ∧
                (maybeDataPage ≤ s.firstPageInBlock + s.countRegularDataPagesInBlock)
          if isDataPage ∧ wanted ≥ s.pageSize then
            some (true, { s with
              bytesOnThisPage := s.pageSize,
              sofarThisPage := 0,
              offsetOnThisPage := 0 })
          else do
            let s2 ← OvflState.ReadPage { s with currentPage := s.currentPage + 1 }
            some (false, s2)
      else some (false, s)
    let direct := r1.1
    let s1 := r1.2
    if direct then
      let numPagesWanted := wanted / s1.pageSize
      let lastDataPageInThisBlock := s1.firstPageInBlock +
        s1.countRegularDataPagesInBlock
      let theDataPage := s1.currentPage + 1
      let numPagesAvailable :=
        if s1.boundaryPageNumber > 0 then s1.boundaryPageNumber - theDataPage
        else lastDataPageInThisBlock - theDataPage + 1
      let numPagesToFetch := min numPagesWanted numPagesAvailable
      let bytesToFetch := numPagesToFetch * s1.pageSize
      let chunk := (List.range numPagesToFetch).flatMap
        (fun j => getPage s1.pages (theDataPage + j))
      some (chunk, { s1 with
        sofarOverall := s1.sofarOverall + bytesToFetch,
        currentPage := s1.currentPage + numPagesToFetch,
        sofarThisPage := s1.pageSize })
    else
      let available := min (s1.bytesOnThisPage - s1.sofarThisPage)
        (s1.len - s1.sofarOverall)
      let num := min available wanted
      let chunk := ((s1.buf.drop (s1.offsetOnThisPage + s1.sofarThisPage)).take num)
      some (chunk, { s1 with
        sofarOverall := s1.sofarOverall + num,
        sofarThisPage := s1.sofarThisPage + num })

/-- The `ReadFully` loop of `bt::readOverflow`: keep reading until the
wanted length is reached or a read returns nothing (a short read leaves
the zero-initialised remainder). -/
def readOverflowGo : Nat → OvflState → List Nat → Nat → Option (List Nat)
  | 0, _, _, _ => none
  | fuel + 1, s, acc, wantLen =>
    if acc.length ≥ wantLen then some (acc.take wantLen)
    else do
      let r ← OvflState.Read s (wantLen - acc.length)
      if r.1.isEmpty then
        some (acc ++ List.replicate (wantLen - acc.length) 0)
      else readOverflowGo fuel r.2 (acc ++ r.1) wantLen

/-- Embeds `bt::readOverflow`: open an overflow stream at `firstPage` and
read `wantLen` bytes. -/
def readOverflow (pages : List (List Nat)) (pageSize firstPage wantLen : Nat) :
    Option (List Nat) := do
  let s0 : OvflState :=
    { pages := pages, pageSize := pageSize, len := wantLen, firstPage := firstPage,
      buf := [], currentPage := firstPage, sofarOverall := 0, sofarThisPage := 0,
      firstPageInBlock := 0, offsetToLastPageInThisBlock := 0,
      countRegularDataPagesInBlock := 0, boundaryPageNumber := 0,
      bytesOnThisPage := 0, offsetOnThisPage := 0 }
  let s1 ← s0.ReadFirstPage
  readOverflowGo (wantLen + 2) s1 [] wantLen

/-- Positional `PageBuffer::GetByte` on a page. -/
def prGetByte (page : List Nat) (cur : Nat) : Nat × Nat := (page.getD cur 0, cur + 1)

/-- Positional `PageBuffer::GetInt32`. -/
def prGetInt32 (page : List Nat) (cur : Nat) : Nat × Nat := (readI32BE page cur, cur + 4)

/-- Positional `PageBuffer::GetInt16`. -/
def prGetInt16 (page : List Nat) (cur : Nat) : Nat × Nat := (readI16BE page cur, cur + 2)

/-- Positional `PageBuffer::GetVarint`, returning value and new offset. -/
def prGetVarint (page : List Nat) (cur : Nat) : Nat × Nat :=
  let r := Varint.read (fun i => page.getD i 0) cur
  (r.2, r.1)

/-- The result of `ICursor::Value` on `myCursor`: a tombstone, an inline
byte array, or a reference to an overflow stream (first page, length). -/
inductive ValueResult where
  | Tombstone : ValueResult
  | Arr : List Nat → ValueResult
  | Stream : Nat → Nat → ValueResult
deriving DecidableEq, Repr

/-- Embeds the state of `myCursor` from src/fs/lsm.rs; the open file is
the page list, `pr` the page buffer, and `prfx` the retained leaf prefix
(`myCursor::prefix` in the source). -/
structure MyCursor where
  pages : List (List Nat)
  pageSize : Nat
  rootPage : Nat
  pr : List Nat
  currentPage : Nat
  leafKeys : List Nat
  countLeafKeys : Nat
  previousLeaf : Nat
  currentKey : Int
  prfx : Option (List Nat)
  firstLeaf : Nat
  lastLeaf : Nat
deriving Repr

namespace MyCursor

/-- `myCursor::resetLeaf`. -/
def resetLeaf (c : MyCursor) : MyCursor :=
  { c with countLeafKeys := 0, previousLeaf := 0, currentKey := -1, prfx := none }

/-- `myCursor::setCurrentPage`: reset leaf state, refuse page 0 and pages
beyond the end of the file (file length is `pages.length * pageSize`). -/
def setCurrentPage (c : MyCursor) (pagenum : Nat) : MyCursor × Bool :=
  let c1 := { resetLeaf c with currentPage := pagenum }
  if pagenum = 0 then (c1, false)
  else if pagenum ≤ c.pages.length then
    ({ c1 with pr := getPage c.pages pagenum }, true)
  else (c1, false)

/-- `myCursor::skipKey`. -/
def skipKey (c : MyCursor) (cur : Nat) : Nat :=
  let r1 := prGetByte c.pr cur
  let kflag := r1.1
  let r2 := prGetVarint c.pr r1.2
  let klen := r2.1
  if kflag &&& ValueFlag.FLAG_OVERFLOW = 0 then
    let prefixLen := match c.prfx with
      | some a => a.length
      | none => 0
    r2.2 + (klen - prefixLen)
  else r2.2 + 4

/-- `myCursor::skipValue`. -/
def skipValue (c : MyCursor) (cur : Nat) : Nat :=
  let r1 := prGetByte c.pr cur
  let vflag := r1.1
  if vflag &&& ValueFlag.FLAG_TOMBSTONE ≠ 0 then r1.2
  else
    let r2 := prGetVarint c.pr r1.2
    let vlen := r2.1
    if vflag &&& ValueFlag.FLAG_OVERFLOW ≠ 0 then r2.2 + 4
    else r2.2 + vlen

/-- The offset-collection loop of `myCursor::readLeaf`. -/
def leafOffsets (c : MyCursor) : Nat → Nat → List Nat
  | 0, _ => []
  | n + 1, cur => cur :: leafOffsets c n (skipValue c (skipKey c cur))

/-- `myCursor::readLeaf`; `none` models the panic on a wrong page type. -/
def readLeaf (c : MyCursor) : Option MyCursor := do
  let c0 := resetLeaf c
  let r1 := prGetByte c0.pr 0
  if r1.1 ≠ PageType.LEAF_NODE then none
  else
    let r2 := prGetByte c0.pr r1.2
    let r3 := prGetInt32 c0.pr r2.2
    let prev := r3.1
    let r4 := prGetByte c0.pr r3.2
    let prefixLen := r4.1
    let cur1 := r4.2
    let px := if prefixLen > 0 then some ((c0.pr.drop cur1).take prefixLen) else none
    let cur2 := cur1 + prefixLen
    let r5 := prGetInt16 c0.pr cur2
    let count := r5.1
    let c1 := { c0 with previousLeaf := prev, prfx := px }
    some { c1 with countLeafKeys := count, leafKeys := leafOffsets c1 count r5.2 }

/-- `myCursor::keyInLeaf`: materialize key `n` (prefix + suffix, or the
whole overflow chain). -/
def keyInLeaf (c : MyCursor) (n : Nat) : Option (List Nat) := do
  let cur0 ← c.leafKeys.get? n
  let r1 := prGetByte c.pr cur0
  let kflag := r1.1
  let r2 := prGetVarint c.pr r1.2
  let klen := r2.1
  let cur2 := r2.2
  if kflag &&& ValueFlag.FLAG_OVERFLOW = 0 then
    match c.prfx with
    | some a => some (a ++ (c.pr.drop cur2).take (klen - a.length))
    | none => some ((c.pr.drop cur2).take klen)
  else
    let pagenum := (prGetInt32 c.pr cur2).1
    readOverflow c.pages c.pageSize pagenum klen

/-- `myCursor::compareKeyInLeaf`: compare key `n` against `other` in
place (`CompareWithPrefix` receives the full key length, as in the
source), or materialize an overflowed key first. -/
def compareKeyInLeaf (c : MyCursor) (n : Nat) (other : List Nat) : Option Int := do
  let cur0 ← c.leafKeys.get? n
  let r1 := prGetByte c.pr cur0
  let kflag := r1.1
  let r2 := prGetVarint c.pr r1.2
  let klen := r2.1
  let cur2 := r2.2
  if kflag &&& ValueFlag.FLAG_OVERFLOW = 0 then
    match c.prfx with
    | some a => some (bcmp.CompareWP a ((c.pr.drop cur2).take klen) other)
    | none => some (bcmp.Compare ((c.pr.drop cur2).take klen) other)
  else
    let pagenum := (prGetInt32 c.pr cur2).1
    let k ← readOverflow c.pages c.pageSize pagenum klen
    some (bcmp.Compare k other)

/-- `myCursor::searchLeaf`: binary search; the first argument is fuel
(`countLeafKeys + 2` suffices). -/
def searchLeaf (c : MyCursor) (k : List Nat) :
    Nat → Int → Int → SeekOp → Int → Int → Option Int
  | 0, _, _, _, _, _ => none
  | fuel + 1, mn, mx, sop, le, ge =>
    if mx < mn then
      match sop with
      | SeekOp.SEEK_EQ => some (-1)
      | SeekOp.SEEK_LE => some le
      | SeekOp.SEEK_GE => some ge
    else do
      let mid := (mx + mn) / 2
      let cmp ← compareKeyInLeaf c mid.toNat k
      if cmp = 0 then some mid
      else if cmp < 0 then searchLeaf c k fuel (mid + 1) mx sop mid ge
      else searchLeaf c k fuel mn (mid - 1) sop le mid

/-- `myCursor::leafIsValid`. -/
def leafIsValid (c : MyCursor) : Bool :=
  (¬ c.leafKeys.isEmpty) ∧ (c.countLeafKeys > 0) ∧ (c.currentKey ≥ 0) ∧
    (c.currentKey < (c.countLeafKeys : Int))

/-- The pointer-parsing loop of `myCursor::readParentPage`. -/
def parsePtrs (page : List Nat) : Nat → Nat → List Nat × Nat
  | 0, cur => ([], cur)
  | n + 1, cur =>
    let r := prGetVarint page cur
    let rest := parsePtrs page n r.2
    (r.1 :: rest.1, rest.2)

/-- The key-parsing loop of `myCursor::readParentPage`. -/
def parseParentKeys (c : MyCursor) : Nat → Nat → Option (List (List Nat) × Nat)
  | 0, cur => some ([], cur)
  | n + 1, cur => do
    let r1 := prGetByte c.pr cur
    let kflag := r1.1
    let r2 := prGetVarint c.pr r1.2
    let klen := r2.1
    if kflag &&& ValueFlag.FLAG_OVERFLOW = 0 then do
      let key := (c.pr.drop r2.2).take klen
      let rest ← parseParentKeys c n (r2.2 + klen)
      some (key :: rest.1, rest.2)
    else do
      let pagenum := (prGetInt32 c.pr r2.2).1
      let key ← readOverflow c.pages c.pageSize pagenum klen
      let rest ← parseParentKeys c n (r2.2 + 4)
      some (key :: rest.1, rest.2)

/-- `myCursor::readParentPage`. -/
def readParentPage (c : MyCursor) : Option (List Nat × List (List Nat)) := do
  let r1 := prGetByte c.pr 0
  if r1.1 ≠ PageType.PARENT_NODE then none
  else
    let cur1 := r1.2 + 1
    let r2 := prGetInt16 c.pr cur1
    let count := r2.1
    let ptrs := parsePtrs c.pr (count + 1) r2.2
    let keys ← parseParentKeys c count ptrs.2
    some (ptrs.1, keys.1)

/-- `myCursor::searchForwardForLeaf`: skip overflow chains until a leaf
(or a parent, meaning no more leaves); fuel bounds the hops. -/
def searchForwardForLeaf (c : MyCursor) : Nat → Option (MyCursor × Bool)
  | 0 => none
  | fuel + 1 =>
    let pt := c.pr.getD 0 0
    if pt = PageType.LEAF_NODE then some (c, true)
    else if pt = PageType.PARENT_NODE then some (c, false)
    else
      let lastInt32 := readI32BE c.pr (c.pageSize - 4)
      if CheckPageFlag c.pr PageFlag.FLAG_BOUNDARY_NODE then
        let r := setCurrentPage c lastInt32
        if r.2 then searchForwardForLeaf r.1 fuel else some (r.1, false)
      else
        let lastPage := c.currentPage + lastInt32
        if CheckPageFlag c.pr PageFlag.FLAG_ENDS_ON_BOUNDARY then
          let r := setCurrentPage c lastPage
          if r.2 then
            let next := readI32BE r.1.pr (r.1.pageSize - 4)
            let r2 := setCurrentPage r.1 next
            if r2.2 then searchForwardForLeaf r2.1 fuel else some (r2.1, false)
          else some (r.1, false)
        else
          let r := setCurrentPage c (lastPage + 1)
          if r.2 then searchForwardForLeaf r.1 fuel else some (r.1, false)

/-- The linear scan `searchInParentPage` (free function in the source):
first key with `k ≤ keys[i]` selects `ptrs[i]`, otherwise 0. -/
def searchInParentPageGo (k : List Nat) (ptrs : List Nat) (keys : List (List Nat)) :
    Nat → Nat → Nat
  | 0, _ => 0
  | fuel + 1, i =>
    if i < keys.length then
      if bcmp.Compare k (keys.getD i []) > 0 then
        searchInParentPageGo k ptrs keys fuel (i + 1)
      else ptrs.getD i 0
    else 0

def searchInParentPage (k : List Nat) (ptrs : List Nat) (keys : List (List Nat)) :
    Nat :=
  searchInParentPageGo k ptrs keys (keys.length + 1) 0

/-- `myCursor::search`: recursive descent from a page; `fuel` bounds the
depth.  On a leaf, binary search plus the LE/GE neighbour-leaf fixups; on
a parent, descend through `searchInParentPage`. -/
def search (k : List Nat) (sop : SeekOp) : Nat → MyCursor → Nat → Option MyCursor
  | 0, _, _ => none
  | fuel + 1, c, pg =>
    let r := setCurrentPage c pg
    if ¬ r.2 then some r.1
    else
      let c1 := r.1
      let pt := c1.pr.getD 0 0
      if pt = PageType.LEAF_NODE then do
        let c2 ← readLeaf c1
        let idx ← searchLeaf c2 k (c2.countLeafKeys + 2) 0
          ((c2.countLeafKeys : Int) - 1) sop (-1) (-1)
        let c3 := { c2 with currentKey := idx }
        if sop ≠ SeekOp.SEEK_EQ then
          if ¬ leafIsValid c3 then
            if sop = SeekOp.SEEK_GE then
              let nextPage :=
                if CheckPageFlag c3.pr PageFlag.FLAG_BOUNDARY_NODE then
                  readI32BE c3.pr (c3.pageSize - 4)
                else if c3.currentPage = c3.rootPage then 0
                else c3.currentPage + 1
              let r2 := setCurrentPage c3 nextPage
              if r2.2 then do
                let r3 ← searchForwardForLeaf r2.1 (r2.1.pages.length + 2)
                if r3.2 then do
                  let c6 ← readLeaf r3.1
                  some { c6 with currentKey := 0 }
                else some r3.1
              else some r2.1
            else
              let tmpPrev := c3.previousLeaf
              if tmpPrev = 0 then some (resetLeaf c3)
              else
                let r2 := setCurrentPage c3 tmpPrev
                if r2.2 then do
                  let c5 ← readLeaf r2.1
                  some { c5 with currentKey := (c5.countLeafKeys : Int) - 1 }
                else some r2.1
          else some c3
        else some c3
      else if pt = PageType.PARENT_NODE then do
        let pk ← readParentPage c1
        let found := searchInParentPage k pk.1 pk.2
        if found = 0 then search k sop fuel c1 (pk.1.getLastD 0)
        else search k sop fuel c1 found
      else some c1

/-- `ICursor::Seek` for `myCursor`. -/
def Seek (c : MyCursor) (k : List Nat) (sop : SeekOp) : Option MyCursor :=
  search k sop (c.pages.length + 2) c c.rootPage

/-- `ICursor::First` for `myCursor`. -/
def First (c : MyCursor) : Option MyCursor :=
  let r := setCurrentPage c c.firstLeaf
  if r.2 then do
    let c2 ← readLeaf r.1
    some { c2 with currentKey := 0 }
  else some r.1

/-- `ICursor::Last` for `myCursor`. -/
def Last (c : MyCursor) : Option MyCursor :=
  let r := setCurrentPage c c.lastLeaf
  if r.2 then do
    let c2 ← readLeaf r.1
    some { c2 with currentKey := (c2.countLeafKeys : Int) - 1 }
  else some r.1

/-- `myCursor::nextInLeaf` (the cast `(currentKey+1) as usize` is safe
because `currentKey ≥ -1`). -/
def nextInLeaf (c : MyCursor) : MyCursor × Bool :=
  if (c.currentKey + 1).toNat < c.countLeafKeys then
    ({ c with currentKey := c.currentKey + 1 }, true)
  else (c, false)

/-- `myCursor::prevInLeaf`. -/
def prevInLeaf (c : MyCursor) : MyCursor × Bool :=
  if c.currentKey > 0 then ({ c with currentKey := c.currentKey - 1 }, true)
  else (c, false)

/-- `ICursor::Next` for `myCursor`. -/
def Next (c : MyCursor) : Option MyCursor :=
  let r := nextInLeaf c
  if r.2 then some r.1
  else
    let nextPage :=
      if CheckPageFlag c.pr PageFlag.FLAG_BOUNDARY_NODE then
        readI32BE c.pr (c.pageSize - 4)
      else if c.pr.getD 0 0 = PageType.LEAF_NODE then
        if c.currentPage = c.rootPage then 0 else c.currentPage + 1
      else 0
    let r2 := setCurrentPage c nextPage
    if r2.2 then do
      let r3 ← searchForwardForLeaf r2.1 (r2.1.pages.length + 2)
      if r3.2 then do
        let c3 ← readLeaf r3.1
        some { c3 with currentKey := 0 }
      else some r3.1
    else some r2.1

/-- `ICursor::Prev` for `myCursor`. -/
def Prev (c : MyCursor) : Option MyCursor :=
  let r := prevInLeaf c
  if r.2 then some r.1
  else
    let previousLeaf := c.previousLeaf
    if previousLeaf = 0 then some (resetLeaf c)
    else
      let r2 := setCurrentPage c previousLeaf
      if r2.2 then do
        let c3 ← readLeaf r2.1
        some { c3 with currentKey := (c3.countLeafKeys : Int) - 1 }
      else some r2.1

/-- `ICursor::IsValid` for `myCursor`. -/
def IsValid (c : MyCursor) : Bool := leafIsValid c

/-- `ICursor::Key`; `none` models the panic on an invalid cursor
(`currentKey as usize` overflows and indexing panics). -/
def Key (c : MyCursor) : Option (List Nat) :=
  if c.currentKey < 0 then none
  else keyInLeaf c c.currentKey.toNat

/-- `ICursor::KeyCompare`, panicking (`none`) on an invalid cursor. -/
def KeyCompare (c : MyCursor) (k : List Nat) : Option Int :=
  if c.currentKey < 0 then none
  else compareKeyInLeaf c c.currentKey.toNat k

/-- `ICursor::ValueLength`: −1 for a tombstone, else the value length;
`none` models the panic on an invalid cursor. -/
def ValueLength (c : MyCursor) : Option Int := do
  if c.currentKey < 0 then none
  else do
    let cur0 ← c.leafKeys.get? c.currentKey.toNat
    let cur1 := skipKey c cur0
    let r1 := prGetByte c.pr cur1
    let vflag := r1.1
    if vflag &&& ValueFlag.FLAG_TOMBSTONE ≠ 0 then some (-1)
    else some ((prGetVarint c.pr r1.2).1 : Int)

/-- `ICursor::Value`: tombstone, inline bytes, or an overflow stream
reference. -/
def Value (c : MyCursor) : Option ValueResult := do
  if c.currentKey < 0 then none
  else do
    let cur0 ← c.leafKeys.get? c.currentKey.toNat
    let cur1 := skipKey c cur0
    let r1 := prGetByte c.pr cur1
    let vflag := r1.1
    if vflag &&& ValueFlag.FLAG_TOMBSTONE ≠ 0 then some ValueResult.Tombstone
    else
      let r2 := prGetVarint c.pr r1.2
      let vlen := r2.1
      if vflag &&& ValueFlag.FLAG_OVERFLOW ≠ 0 then
        let pagenum := (prGetInt32 c.pr r2.2).1
        some (ValueResult.Stream pagenum vlen)
      else
        some (ValueResult.Arr ((c.pr.drop r2.2).take vlen))

/-- The loop of the `ICursor::CountKeysForward` default method. -/
def countForwardGo : Nat → MyCursor → Nat → Option Nat
  | 0, _, _ => none
  | fuel + 1, c, i =>
    if IsValid c then do
      let c2 ← Next c
      countForwardGo fuel c2 (i + 1)
    else some i

/-- `ICursor::CountKeysForward` for `myCursor`. -/
def CountKeysForward (c : MyCursor) : Option Nat := do
  let c1 ← First c
  countForwardGo (c.pages.length * c.pageSize + 2) c1 0

/-- The loop of the `ICursor::CountKeysBackward` default method. -/
def countBackwardGo : Nat → MyCursor → Nat → Option Nat
  | 0, _, _ => none
  | fuel + 1, c, i =>
    if IsValid c then do
      let c2 ← Prev c
      countBackwardGo fuel c2 (i + 1)
    else some i

/-- `ICursor::CountKeysBackward` for `myCursor`. -/
def CountKeysBackward (c : MyCursor) : Option Nat := do
  let c1 ← Last c
  countBackwardGo (c.pages.length * c.pageSize + 2) c1 0

/-- Embeds `myCursor::new`: read the root page; a leaf root is its own
first and last leaf, a parent root must carry `FLAG_ROOT_NODE` and
supplies them from its tail ints. -/
def new (pages : List (List Nat)) (pageSize rootPage : Nat) : Option MyCursor :=
  let c0 : MyCursor :=
    { pages := pages, pageSize := pageSize, rootPage := rootPage, pr := [],
      currentPage := 0, leafKeys := [], countLeafKeys := 0, previousLeaf := 0,
      currentKey := -1, prfx := none, firstLeaf := 0, lastLeaf := 0 }
  let r := setCurrentPage c0 rootPage
  if ¬ r.2 then none
  else
    let c1 := r.1
    if c1.pr.getD 0 0 = PageType.LEAF_NODE then
      some { c1 with firstLeaf := rootPage, lastLeaf := rootPage }
    else if c1.pr.getD 0 0 = PageType.PARENT_NODE then
      if ¬ CheckPageFlag c1.pr PageFlag.FLAG_ROOT_NODE then none
      else
        some { c1 with
          firstLeaf := readI32BE c1.pr (pageSize - 8),
          lastLeaf := readI32BE c1.pr (pageSize - 4) }
    else none

end MyCursor

/-- Embeds the `Direction` enum from src/fs/lsm.rs. -/
inductive Direction where
  | FORWARD : Direction
  | BACKWARD : Direction
  | WANDERING : Direction
deriving DecidableEq, Repr

/-- Embeds `MultiCursor` from src/fs/lsm.rs, with `myCursor` subcursors
(the `ICursor` implementation used for segments). -/
structure MultiCursor where
  subcursors : List MyCursor
  cur : Option Nat
  dir : Direction

namespace MultiCursor

/-- Embeds `MultiCursor::find`: scan all subcursors, keeping the first
index that strictly wins the comparison.  No validity check is made; the
comparison itself can panic (outer `none`) on an invalid subcursor. -/
def find (subs : List MyCursor) (cmp : MyCursor → MyCursor → Option Int) :
    Option (Option Nat) :=
  if subs.isEmpty then some none
  else
    (List.range subs.length).foldlM (fun res i =>
      match res with
      | some winning => do
        let x ← subs.get? i
        let y ← subs.get? winning
        let c ← cmp x y
        if c < 0 then some (some i) else some (some winning)
      | none => some (some i)) none

/-- The comparison of `MultiCursor::findMin`:
`a.KeyCompare(&*b.Key())`. -/
def findMinCmp (a b : MyCursor) : Option Int := do
  let kb ← MyCursor.Key b
  MyCursor.KeyCompare a kb

/-- The comparison of `MultiCursor::findMax`. -/
def findMaxCmp (a b : MyCursor) : Option Int := do
  let ka ← MyCursor.Key a
  MyCursor.KeyCompare b ka

/-- `MultiCursor::findMin`. -/
def findMin (subs : List MyCursor) : Option (Option Nat) := find subs findMinCmp

/-- `MultiCursor::findMax`. -/
def findMax (subs : List MyCursor) : Option (Option Nat) := find subs findMaxCmp

/-- `MultiCursor::Create`. -/
def Create (subs : List MyCursor) : MultiCursor :=
  ⟨subs, none, Direction.WANDERING⟩

/-- `MultiCursor::IsValid`. -/
def IsValid (mc : MultiCursor) : Bool :=
  match mc.cur with
  | some i => ((mc.subcursors.get? i).map MyCursor.IsValid).getD false
  | none => false

/-- `MultiCursor::Key` (panics — `none` — when no current subcursor). -/
def Key (mc : MultiCursor) : Option (List Nat) :=
  match mc.cur with
  | some i => do
    let c ← mc.subcursors.get? i
    MyCursor.Key c
  | none => none

/-- `MultiCursor::Value`. -/
def Value (mc : MultiCursor) : Option ValueResult :=
  match mc.cur with
  | some i => do
    let c ← mc.subcursors.get? i
    MyCursor.Value c
  | none => none

/-- `MultiCursor::First`: `First` on every subcursor, then `findMin`. -/
def First (mc : MultiCursor) : Option MultiCursor := do
  let subs2 ← mc.subcursors.mapM MyCursor.First
  let cur2 ← findMin subs2
  some ⟨subs2, cur2, Direction.WANDERING⟩

/-- `MultiCursor::Next`: re-seek wandering subcursors to the current key,
advance every subcursor positioned at that key, then `findMin` — which
compares subcursors without checking their validity. -/
def Next (mc : MultiCursor) : Option MultiCursor :=
  match mc.cur with
  | none => none
  | some icur => do
    let ci ← mc.subcursors.get? icur
    let k ← MyCursor.Key ci
    let subs2 ← (List.range mc.subcursors.length).foldlM (fun subs j => do
      let csr ← subs.get? j
      let csr1 ←
        if mc.dir ≠ Direction.FORWARD ∧ icur ≠ j then
          MyCursor.Seek csr k SeekOp.SEEK_GE
        else some csr
      let csr2 ←
        if MyCursor.IsValid csr1 then do
          let c0 ← MyCursor.KeyCompare csr1 k
          if c0 = 0 then MyCursor.Next csr1 else some csr1
        else some csr1
      some (subs.set j csr2)) mc.subcursors
    let cur2 ← findMin subs2
    some ⟨subs2, cur2, Direction.FORWARD⟩

end MultiCursor

/-- The iteration protocol of the `Iterator` impl for `ICursor` (read
key/value while valid, then `Next`), collecting the visited pairs. -/
def iterForward : Nat → Option MyCursor → List (List Nat × ValueResult) →
    Option (List (List Nat × ValueResult))
  | 0, _, _ => none
  | _, none, _ => none
  | fuel + 1, some c, acc =>
    if MyCursor.IsValid c then do
      let k ← MyCursor.Key c
      let v ← MyCursor.Value c
      iterForward fuel (MyCursor.Next c) (acc ++ [(k, v)])
    else some acc

/-- A four-pair sorted source; with page size 32 the writer needs two
leaves (two pairs each) plus a parent root page. -/
def demoPairs : List kvp :=
  [⟨[10], Blob.Array [1, 1, 1, 1]⟩, ⟨[20], Blob.Array [2, 2, 2, 2]⟩,
   ⟨[30], Blob.Array [3, 3, 3, 3]⟩, ⟨[40], Blob.Array [4, 4, 4, 4]⟩]

/-- The segment written from `demoPairs` on an empty file with page size
32 (leaves at pages 1 and 2, parent root at page 3). -/
def demoSeg : Option (Nat × FileStream × SPM) :=
  CreateFromSortedSequenceOfKeyValuePairs ⟨[], 1⟩ ⟨32, 1⟩ demoPairs

/-- A cursor opened on the root page of `demoSeg`. -/
def demoCursor : Option MyCursor := do
  let r ← demoSeg
  MyCursor.new r.2.1.pages 32 r.1

/-- C1: on the four-pair segment `demoSeg`, forward iteration yields
exactly the source pairs and `CountKeysForward = 4 = |S|`, but
`CountKeysBackward = 2`: the root page's last-leaf slot receives
`leaves[0].page` — the FIRST leaf — so `Last` lands on the first leaf and
the backward walk sees only its two keys, contradicting
`count_keys_forward == count_keys_backward == |S|`. -/
theorem claim_roundtrip_bug :
    demoPairs.length = 4 ∧
    (demoCursor.bind MyCursor.CountKeysForward) = some 4 ∧
    (demoCursor.bind MyCursor.CountKeysBackward) = some 2 ∧
    (demoCursor.bind (fun c => iterForward 10 (MyCursor.First c) [])) =
      some [([10], ValueResult.Arr [1, 1, 1, 1]), ([20], ValueResult.Arr [2, 2, 2, 2]),
        ([30], ValueResult.Arr [3, 3, 3, 3]), ([40], ValueResult.Arr [4, 4, 4, 4])] := by
  refine ⟨rfl, rfl, rfl, rfl⟩

/-- C4: on `demoSeg`, the key `[20]` is stored (forward iteration lists
it), yet `Seek [20] EQ` reports invalid; `Seek [15] GE` lands on `[30]`
although `[20] ≥ [15]` is smaller; `Seek [15] LE` lands on `[20]`, which
is greater than the target.  The parent page's separator keys are each
child's FIRST key, so the descent picks the wrong child for any key that
is not the first of its leaf. -/
theorem claim_seek_bug :
    ((demoCursor.bind (fun c => iterForward 10 (MyCursor.First c) [])).map
      (List.map Prod.fst)) = some [[10], [20], [30], [40]] ∧
    ((demoCursor.bind (fun c => MyCursor.Seek c [20] SeekOp.SEEK_EQ)).map
      MyCursor.IsValid) = some false ∧
    ((demoCursor.bind (fun c => MyCursor.Seek c [15] SeekOp.SEEK_GE)).bind
      MyCursor.Key) = some [30] ∧
    ((demoCursor.bind (fun c => MyCursor.Seek c [15] SeekOp.SEEK_LE)).bind
      MyCursor.Key) = some [20] := by
  refine ⟨rfl, rfl, rfl, rfl⟩

/-- The newer single-pair segment for the multi-cursor scenario:
`(k, vA) = ([50], [1,1])`. -/
def mcSeg1 : Option (Nat × FileStream × SPM) :=
  CreateFromSortedSequenceOfKeyValuePairs ⟨[], 1⟩ ⟨32, 1⟩ [⟨[50], Blob.Array [1, 1]⟩]

/-- The older segment: `(k, vB) = ([50], [2,2])`. -/
def mcSeg2 : Option (Nat × FileStream × SPM) :=
  CreateFromSortedSequenceOfKeyValuePairs ⟨[], 1⟩ ⟨32, 1⟩ [⟨[50], Blob.Array [2, 2]⟩]

/-- The multi-cursor over the two segments, newest first. -/
def mcDemo : Option MultiCursor := do
  let r1 ← mcSeg1
  let r2 ← mcSeg2
  let c1 ← MyCursor.new r1.2.1.pages 32 r1.1
  let c2 ← MyCursor.new r2.2.1.pages 32 r2.1
  some (MultiCursor.Create [c1, c2])

/-- The multi-cursor after `First`. -/
def mcStep1 : Option MultiCursor := mcDemo.bind MultiCursor.First

/-- C5: with S1 (newer) holding `([50], vA)` and S2 (older) holding
`([50], vB)`, `First` does select the earliest subcursor (index 0) and
yields `([50], vA)` — but the following `Next` panics (`none`): both
subcursors become invalid, and `findMin` compares subcursors without
checking `IsValid`, calling `Key()` on an exhausted cursor.  Stepping
through therefore crashes instead of terminating with an invalid
cursor. -/
theorem claim_multicursor_bug :
    (mcStep1.map (fun m => (m.cur, MultiCursor.IsValid m))) = some (some 0, true) ∧
    (mcStep1.bind MultiCursor.Key) = some [50] ∧
    (mcStep1.bind MultiCursor.Value) = some (ValueResult.Arr [1, 1]) ∧
    (mcStep1.bind MultiCursor.Next) = none := by
  refine ⟨rfl, rfl, rfl, rfl⟩

/-- The single-pair segment for C9. -/
def c9seg : Option (Nat × FileStream × SPM) :=
  CreateFromSortedSequenceOfKeyValuePairs ⟨[], 1⟩ ⟨32, 1⟩
    [⟨[10], Blob.Array [1, 1, 1, 1]⟩]

/-- C9 counterexample: a single-pair segment does NOT produce a lone leaf
page carrying `ROOT_NODE`: the writer emits the leaf (page 1, flag byte
without `ROOT_NODE`) and always runs the parent loop, so the root is a
separate parent page (page 2) which carries the flag. -/
theorem claim_root_leaf_counterexample :
    (c9seg.map (fun r => r.1)) = some 2 ∧
    (c9seg.map (fun r => r.2.1.pages.length)) = some 2 ∧
    (c9seg.map (fun r => (getPage r.2.1.pages 1).getD 0 0)) =
      some PageType.LEAF_NODE ∧
    (c9seg.map (fun r => CheckPageFlag (getPage r.2.1.pages 1)
      PageFlag.FLAG_ROOT_NODE)) = some false ∧
    (c9seg.map (fun r => (getPage r.2.1.pages 2).getD 0 0)) =
      some PageType.PARENT_NODE ∧
    (c9seg.map (fun r => CheckPageFlag (getPage r.2.1.pages 2)
      PageFlag.FLAG_ROOT_NODE)) = some true := by
  refine ⟨rfl, rfl, rfl, rfl, rfl, rfl⟩

theorem writeList_lt (bs : List Nat) (f : Buf) (i j : Nat) (h : j < i) :
    writeList f i bs j = f j := by
  induction bs generalizing f i with
  | nil => rfl
  | cons b bs ih =>
    unfold writeList
    rw [ih (upd f i b) (i + 1) (by omega), upd_other f i b j (by omega)]

theorem writeI32BE_lt (f : Buf) (pos v j : Nat) (h : j < pos) :
    writeI32BE f pos v j = f j := by
  unfold writeI32BE
  rw [upd_other _ _ _ _ (by omega), upd_other _ _ _ _ (by omega),
    upd_other _ _ _ _ (by omega), upd_other _ _ _ _ (by omega)]

theorem varint_write_lt (f : Buf) (cur v j : Nat) (h : j < cur) :
    (Varint.write f cur v).1 j = f j := by
  unfold Varint.write
  split_ifs <;>
    simp only <;>
    (repeat rw [upd_other _ _ _ _ (by omega)])

/-- A builder operation is monotone: the cursor does not move back and
bytes before the cursor are untouched. -/
def MonoPB (g : PageBuilder → PageBuilder) : Prop :=
  ∀ pb : PageBuilder, pb.cur ≤ (g pb).cur ∧ ∀ j, j < pb.cur → (g pb).buf j = pb.buf j

theorem monoPutByte (x : Nat) : MonoPB (fun pb => pb.PutByte x) := by
  intro pb
  refine ⟨by simp [PageBuilder.PutByte], ?_⟩
  intro j hj
  simp only [PageBuilder.PutByte]
  rw [upd_other _ _ _ _ (by omega)]

theorem monoPutArray (ba : List Nat) : MonoPB (fun pb => pb.PutArray ba) := by
  intro pb
  refine ⟨by simp [PageBuilder.PutArray], ?_⟩
  intro j hj
  simp only [PageBuilder.PutArray]
  rw [writeList_lt _ _ _ _ (by omega)]

theorem monoPutInt32 (v : Nat) : MonoPB (fun pb => pb.PutInt32 v) := by
  intro pb
  refine ⟨by simp [PageBuilder.PutInt32], ?_⟩
  intro j hj
  simp only [PageBuilder.PutInt32]
  rw [writeI32BE_lt _ _ _ _ (by omega)]

theorem monoPutInt16 (v : Nat) : MonoPB (fun pb => pb.PutInt16 v) := by
  intro pb
  refine ⟨by simp [PageBuilder.PutInt16], ?_⟩
  intro j hj
  simp only [PageBuilder.PutInt16]
  rw [upd_other _ _ _ _ (by omega), upd_other _ _ _ _ (by omega)]

theorem monoPutVarint (v : Nat) : MonoPB (fun pb => pb.PutVarint v) := by
  intro pb
  constructor
  · simp only [PageBuilder.PutVarint]
    rw [varint_write_cursor]
    omega
  · intro j hj
    simp only [PageBuilder.PutVarint]
    rw [varint_write_lt _ _ _ _ (by omega)]

theorem monoComp (g h : PageBuilder → PageBuilder) (hg : MonoPB g) (hh : MonoPB h) :
    MonoPB (fun pb => h (g pb)) := by
  intro pb
  obtain ⟨hg1, hg2⟩ := hg pb
  obtain ⟨hh1, hh2⟩ := hh (g pb)
  constructor
  · show pb.cur ≤ (h (g pb)).cur
    omega
  · intro j hj
    show (h (g pb)).buf j = pb.buf j
    rw [hh2 j (by omega), hg2 j hj]

/-- The per-pair builder step of `buildLeaf` is monotone. -/
theorem monoLeafPairStep (prefixLen : Nat) (lp : LeafPair) :
    MonoPB (fun pb =>
      let pbk :=
        match lp.kLoc with
        | KeyLocation.Inline =>
          ((pb.PutByte 0).PutVarint lp.key.length).PutArray (lp.key.drop prefixLen)
        | KeyLocation.Overflow kpage =>
          ((pb.PutByte ValueFlag.FLAG_OVERFLOW).PutVarint lp.key.length).PutInt32 kpage
      match lp.vLoc with
      | ValueLocation.Tombstone => pbk.PutByte ValueFlag.FLAG_TOMBSTONE
      | ValueLocation.Buffer vbuf =>
        ((pbk.PutByte 0).PutVarint vbuf.length).PutArray vbuf
      | ValueLocation.Overflowed vlen vpage =>
        ((pbk.PutByte ValueFlag.FLAG_OVERFLOW).PutVarint vlen).PutInt32 vpage) := by
  have hk : MonoPB (fun pb =>
      match lp.kLoc with
      | KeyLocation.Inline =>
        ((pb.PutByte 0).PutVarint lp.key.length).PutArray (lp.key.drop prefixLen)
      | KeyLocation.Overflow kpage =>
        ((pb.PutByte ValueFlag.FLAG_OVERFLOW).PutVarint lp.key.length).PutInt32 kpage) := by
    cases lp.kLoc with
    | Inline =>
      exact monoComp _ _ (monoComp _ _ (monoPutByte _) (monoPutVarint _))
        (monoPutArray _)
    | Overflow kpage =>
      exact monoComp _ _ (monoComp _ _ (monoPutByte _) (monoPutVarint _))
        (monoPutInt32 _)
  have hv : MonoPB (fun pbk =>
      match lp.vLoc with
      | ValueLocation.Tombstone => pbk.PutByte ValueFlag.FLAG_TOMBSTONE
      | ValueLocation.Buffer vbuf =>
        ((pbk.PutByte 0).PutVarint vbuf.length).PutArray vbuf
      | ValueLocation.Overflowed vlen vpage =>
        ((pbk.PutByte ValueFlag.FLAG_OVERFLOW).PutVarint vlen).PutInt32 vpage) := by
    cases lp.vLoc with
    | Tombstone => exact monoPutByte _
    | Buffer vbuf =>
      exact monoComp _ _ (monoComp _ _ (monoPutByte _) (monoPutVarint _))
        (monoPutArray _)
    | Overflowed vlen vpage =>
      exact monoComp _ _ (monoComp _ _ (monoPutByte _) (monoPutVarint _))
        (monoPutInt32 _)
  exact monoComp _ _ hk hv

theorem foldl_byte1 (f : PageBuilder → LeafPair → PageBuilder)
    (hf : ∀ lp, MonoPB (fun pb => f pb lp)) (l : List LeafPair) (pb : PageBuilder)
    (h1 : pb.buf 1 = 0) (h2 : 2 ≤ pb.cur) :
    (l.foldl f pb).buf 1 = 0 ∧ 2 ≤ (l.foldl f pb).cur := by
  induction l generalizing pb with
  | nil => exact ⟨h1, h2⟩
  | cons lp l ih =>
    obtain ⟨hm1, hm2⟩ := hf lp pb
    have hm1' : pb.cur ≤ (f pb lp).cur := hm1
    have hm2' : ∀ j, j < pb.cur → (f pb lp).buf j = pb.buf j := hm2
    exact ih (f pb lp) (by rw [hm2' 1 (by omega)]; exact h1) (by omega)

theorem step_byte1 (g : PageBuilder → PageBuilder) (hg : MonoPB g)
    (pb : PageBuilder) (h1 : pb.buf 1 = 0) (h2 : 2 ≤ pb.cur) :
    (g pb).buf 1 = 0 ∧ 2 ≤ (g pb).cur := by
  obtain ⟨ha, hb⟩ := hg pb
  exact ⟨by rw [hb 1 (by omega)]; exact h1, by omega⟩

/-- The flag byte (byte 1) written by `buildLeaf` is always 0: every leaf
page starts with a cleared flag byte, and later puts never touch it. -/
theorem buildLeaf_byte1 (st : LeafState) (pb : PageBuilder) :
    (buildLeaf st pb).buf 1 = 0 ∧ 2 ≤ (buildLeaf st pb).cur := by
  have h0 : (((pb.Reset).PutByte PageType.LEAF_NODE).PutByte 0).buf 1 = 0 ∧
      2 ≤ (((pb.Reset).PutByte PageType.LEAF_NODE).PutByte 0).cur := by
    constructor
    · show (upd (upd pb.buf 0 PageType.LEAF_NODE) 1 0) 1 = 0
      exact upd_same _ _ _
    · exact le_refl 2
  have h1 := step_byte1 (fun x => x.PutInt32 st.prevLeaf) (monoPutInt32 _) _ h0.1 h0.2
  have h2 := step_byte1 (fun x => x.PutByte (st.prefixLen % 256)) (monoPutByte _) _
    h1.1 h1.2
  have h3 : ∀ pbx : PageBuilder, pbx.buf 1 = 0 → 2 ≤ pbx.cur →
      (if st.prefixLen > 0 then
        pbx.PutArray ((st.keys.headD dfltLeafPair).key.take st.prefixLen)
      else pbx).buf 1 = 0 ∧
      2 ≤ (if st.prefixLen > 0 then
        pbx.PutArray ((st.keys.headD dfltLeafPair).key.take st.prefixLen)
      else pbx).cur := by
    intro pbx hh1 hh2
    by_cases hp : st.prefixLen > 0
    · simp only [hp, if_true]
      exact step_byte1 (fun x => x.PutArray _) (monoPutArray _) _ hh1 hh2
    · simp only [hp, if_false]
      exact ⟨hh1, hh2⟩
  have h4 := h3 _ h2.1 h2.2
  have h5 := step_byte1 (fun x => x.PutInt16 st.keys.length) (monoPutInt16 _) _
    h4.1 h4.2
  exact foldl_byte1 _ (fun lp => monoLeafPairStep st.prefixLen lp) st.keys _ h5.1 h5.2

theorem flush_getD (pb : PageBuilder) (pageSize j : Nat) (h : j < pageSize) :
    (pb.flush pageSize).getD j 0 = pb.buf j := by
  unfold PageBuilder.flush
  rw [List.getD_eq_getElem?_getD, List.getElem?_map, List.getElem?_range h]
  rfl

theorem seekPage_pages (fs fs' : FileStream) (n : Nat)
    (h : seekPage fs n = some fs') : fs'.pages = fs.pages := by
  unfold seekPage at h
  by_cases hn : n = 0
  · rw [if_pos hn] at h
    cases h
  · rw [if_neg hn] at h
    cases h
    rfl

theorem getPage_setPage (pageSize : Nat) (l : List (List Nat)) (n : Nat)
    (pg : List Nat) (hn : 1 ≤ n) : getPage (setPage pageSize l n pg) n = pg := by
  unfold getPage setPage
  by_cases hl : l.length < n
  · simp only [if_pos hl]
    have hlen : (l ++ List.replicate (n - l.length)
        (List.replicate pageSize 0)).length = n := by
      rw [List.length_append, List.length_replicate]
      omega
    rw [List.getD_eq_getElem?_getD, List.getElem?_set_self (by rw [hlen]; omega)]
    rfl
  · simp only [if_neg hl]
    rw [List.getD_eq_getElem?_getD, List.getElem?_set_self (by omega)]
    rfl

theorem writeLeaf_shape (pageSize : Nat) (isRootPage : Bool) (c c' : LWCtx)
    (h : writeLeaf pageSize isRootPage c = some c') :
    ∃ pb3 : PageBuilder,
      c'.fs.pages = setPage pageSize c.fs.pages c.fs.pos (pb3.flush pageSize) ∧
      (pb3 = buildLeaf c.st c.pb ∨
        ∃ v, PageBuilder.SetLastInt32 pageSize
          ((buildLeaf c.st c.pb).SetPageFlag PageFlag.FLAG_BOUNDARY_NODE) v =
            some pb3) := by
  unfold writeLeaf at h
  simp only [bind, Option.bind, ne_eq, eq_self_iff_true, not_true_eq_false,
    if_false, ite_false] at h
  split at h
  · -- isRootPage = true
    cases h
    exact ⟨buildLeaf c.st c.pb, rfl, Or.inl rfl⟩
  · -- isRootPage = false
    split at h
    · -- boundary: firstPage = lastPage
      split at h
      · -- SetLastInt32 returned none
        cases h
      · -- SetLastInt32 returned some pbB2
        rename_i pbB2 heq
        split at h
        · -- seek to a non-consecutive next block
          split at h
          all_goals simp only [] at h
          all_goals split at h
          all_goals
            first
            | (rename_i y hseek
               cases h
               refine ⟨pbB2, ?_,
                 Or.inr ⟨(c.spm.GetBlock c.token).1.firstPage, heq⟩⟩
               show y.pages = _
               rw [seekPage_pages _ _ _ hseek]
               rfl)
            | cases h
        · cases h
          exact ⟨pbB2, rfl, Or.inr ⟨(c.spm.GetBlock c.token).1.firstPage, heq⟩⟩
    · -- non-boundary leaf
      cases h
      exact ⟨buildLeaf c.st c.pb, rfl, Or.inl rfl⟩

/-- Concrete writer context for exercising `writeLeaf`: one empty-keys leaf
state over block pages 1..10, a fresh builder, an empty file at position 1. -/
def lnrCtx : LWCtx :=
  ⟨⟨0, [⟨[10], KeyLocation.Inline, ValueLocation.Buffer [1, 2]⟩], 0, 0, 0, [],
      ⟨1, 10⟩⟩,
    PageBuilder.new, ⟨[], 1⟩, ⟨32, 11⟩, []⟩

/-- C9, amended: no page written by `writeLeaf` ever carries the
`FLAG_ROOT_NODE` flag — its flag byte is `0` or `FLAG_BOUNDARY_NODE` only.
The `isRootPage` argument merely suppresses boundary-block allocation, so
even the lone leaf of a single-pair segment is left unflagged (and the
writer always adds a parent root page, per
`claim_root_leaf_counterexample`). -/
theorem claim_leaf_never_root (pageSize : Nat) (isRootPage : Bool)
    (c c' : LWCtx) (hps : 6 ≤ pageSize) (hpos : 1 ≤ c.fs.pos)
    (h : writeLeaf pageSize isRootPage c = some c') :
    CheckPageFlag (getPage c'.fs.pages c.fs.pos) PageFlag.FLAG_ROOT_NODE =
      false := by
  obtain ⟨pb3, hpages, hcase⟩ := writeLeaf_shape pageSize isRootPage c c' h
  rw [hpages, getPage_setPage _ _ _ _ hpos]
  have hbyte : (pb3.flush pageSize).getD 1 0 = pb3.buf 1 :=
    flush_getD pb3 pageSize 1 (by omega)
  have hb : pb3.buf 1 = 0 ∨ pb3.buf 1 = 2 := by
    rcases hcase with hE | ⟨v, hset⟩
    · left
      rw [hE]
      exact (buildLeaf_byte1 c.st c.pb).1
    · right
      unfold PageBuilder.SetLastInt32 at hset
      split at hset
      · cases hset
      · cases hset
        show writeI32BE
          ((buildLeaf c.st c.pb).SetPageFlag PageFlag.FLAG_BOUNDARY_NODE).buf
          (pageSize - 4) v 1 = 2
        rw [writeI32BE_lt _ _ _ _ (by omega)]
        show upd (buildLeaf c.st c.pb).buf 1
          ((buildLeaf c.st c.pb).buf 1 ||| PageFlag.FLAG_BOUNDARY_NODE) 1 = 2
        rw [upd_same, (buildLeaf_byte1 c.st c.pb).1]
        decide
  unfold CheckPageFlag
  rw [hbyte]
  rcases hb with hb | hb <;> rw [hb] <;> decide

/-- Witness for C9's amended theorem: a concrete single-pair root-leaf call
`writeLeaf 32 true lnrCtx` succeeds and the written page's `FLAG_ROOT_NODE`
test is `false`. -/
theorem claim_leaf_never_root_witness :
    6 ≤ 32 ∧ 1 ≤ lnrCtx.fs.pos ∧
      CheckPageFlag
        (getPage ((writeLeaf 32 true lnrCtx).getD lnrCtx).fs.pages
          lnrCtx.fs.pos)
        PageFlag.FLAG_ROOT_NODE = false :=
  ⟨by omega, le_refl 1,
    claim_leaf_never_root 32 true lnrCtx ((writeLeaf 32 true lnrCtx).getD lnrCtx)
      (by omega) (le_refl 1) rfl⟩
